import Mathlib

/-!
Verification development for the `ohe` railway asset-matching core
(`src/lib/analyzer.ts`).  The file shallowly embeds the two variants of the
matching pipeline found in the source — the `analyzeData`/`performMatch`
variant and the `POST` route variant — together with the `GridIndex`
spatial index, the CSV/column boundary (`parseCSV`, `findColumn`,
`Number.parseFloat`) and the haversine distance function, and proves the
specification claims about them (theorems `claim_C1` … `claim_C10`).

Modelling conventions:
* IEEE doubles are modelled as `ℚ` everywhere the program manipulates
  parsed coordinate/speed/threshold values; a JavaScript `NaN` produced by
  `Number.parseFloat` is modelled as `Option.none`, so a guard
  `isNaN x` in the source corresponds to a `match` on the `Option`.
* The transcendental `haversineMeters` cannot be a `ℚ`-valued computable
  function; the matching pipeline is therefore parametrised by the
  distance function `dist : Dist`, exactly at the call site where the
  source calls `haversineMeters`.  Theorems about the pipeline quantify
  over `dist` (so they hold in particular for the haversine instance);
  `haversineMeters` itself is embedded over `ℝ` and its claims are proved
  there.
* `Map<string, ...>` keyed by the cell string `"cx,cy"` is modelled as a
  function `ℤ × ℤ → List Entry` (the key is in bijection with the pair);
  a missing key is the empty bucket, matching the `has`/`set`/`push` use
  in the source.
-/

namespace OheAnalyzer

/-! ## Definitions: the embedded program -/

/-- JavaScript `Math.floor` on a rational: `⌊q⌋`.  Written with integer
division (`Int.ediv`, the `/` of `ℤ`) so that it is computable; it agrees
with `Int.floor` (`jsFloor_eq`). -/
def jsFloor (q : ℚ) : ℤ := q.num / (q.den : ℤ)

/-- JavaScript `Math.round` (round half toward positive infinity):
`Math.round(x) = ⌊x + 1/2⌋`. -/
def jsRound (q : ℚ) : ℤ := jsFloor (q + 1/2)

/-- One RTIS track row after the numeric-parsing boundary
(`Number.parseFloat` of the latitude/longitude/speed cells; `none` models
`NaN`/a missing column, the timestamp string is passed through as in the
source, with `undefined` collapsed to `""` by the `|| ""` in the source). -/
structure TrackRow where
  lat : Option ℚ
  lon : Option ℚ
  time : String
  speed : Option ℚ
deriving DecidableEq

/-- One asset row (OHE mast or signal) after the parsing boundary.
`name` is the label cell (`""` when absent, as `|| ""` would give). -/
structure AssetRow where
  name : String
  lat : Option ℚ
  lon : Option ℚ
deriving DecidableEq

/-- An element of a `GridIndex` bucket: `{ idx, lat, lon }` as pushed by
`GridIndex.insert`. -/
structure Entry where
  idx : ℕ
  lat : ℚ
  lon : ℚ
deriving DecidableEq

/-- The `gridDeg` cell size used by both pipeline variants
(`new GridIndex(0.001)`). -/
def gridDeg : ℚ := 1/1000

/-- `GridIndex.cell`: the cell key
`(Math.floor(lat / gridDeg), Math.floor(lon / gridDeg))`.  The source
encodes the pair as the string `"cx,cy"`; the encoding is injective, so the
pair itself is used as the key. -/
def cellKey (lat lon : ℚ) : ℤ × ℤ := (jsFloor (lat / gridDeg), jsFloor (lon / gridDeg))

/-- The `Map` underlying a `GridIndex`: cell key to bucket, a missing key
being the empty bucket. -/
abbrev Grid := ℤ × ℤ → List Entry

def emptyGrid : Grid := fun _ => []

/-- `GridIndex.insert(idx, lat, lon)`: push `{idx, lat, lon}` onto the
bucket of the point's cell (creating the bucket when absent). -/
def insertG (g : Grid) (idx : ℕ) (lat lon : ℚ) : Grid :=
  fun k => if k = cellKey lat lon then g k ++ [⟨idx, lat, lon⟩] else g k

/-- The nine cell keys probed by `GridIndex.query`, in the source's
enumeration order (`dx` outer loop from -1 to 1, `dy` inner). -/
def neighborhood (lat lon : ℚ) : List (ℤ × ℤ) :=
  let c := cellKey lat lon
  ([-1, 0, 1] : List ℤ).flatMap fun dx =>
    ([-1, 0, 1] : List ℤ).map fun dy => (c.1 + dx, c.2 + dy)

/-- `GridIndex.query(lat, lon)`: concatenation of the buckets of the 3×3
neighborhood of the query point's cell, in probe order; missing cells
contribute nothing. -/
def queryG (g : Grid) (lat lon : ℚ) : List Entry :=
  (neighborhood lat lon).flatMap g

/-- Index construction loop (`rtisData.forEach((row, idx) => ...)`): rows
whose latitude or longitude parsed to `NaN` are skipped, but still consume
their array index `i`. -/
def buildAux (g : Grid) (i : ℕ) : List TrackRow → Grid
  | [] => g
  | r :: rs =>
    match r.lat, r.lon with
    | some la, some lo => buildAux (insertG g i la lo) (i + 1) rs
    | _, _ => buildAux g (i + 1) rs

def buildIndex (track : List TrackRow) : Grid := buildAux emptyGrid 0 track

/-- The type of the distance function the pipeline is parametrised by; the
program instantiates it with `haversineMeters`. -/
abbrev Dist := ℚ → ℚ → ℚ → ℚ → ℚ

/-- Candidate scan (`candidates.forEach(... if (dist < bestDist) ...)`)
carrying the running best `(bestIdx, bestDist)`. -/
def selGo (dist : Dist) (lat lon : ℚ) (bi : ℕ) (bd : ℚ) : List Entry → ℕ × ℚ
  | [] => (bi, bd)
  | c :: cs =>
    let d := dist lat lon c.lat c.lon
    if d < bd then selGo dist lat lon c.idx d cs else selGo dist lat lon bi bd cs

/-- The full scan from the source's seed `bestIdx = null`,
`bestDist = Infinity`.  Every value the model's distance function returns is
a (finite) rational, so the first candidate always beats the `Infinity`
seed, exactly as every finite double satisfies `dist < Infinity`; the scan
is therefore seeded with the first candidate. -/
def selectBest (dist : Dist) (lat lon : ℚ) : List Entry → Option (ℕ × ℚ)
  | [] => none
  | c :: cs => some (selGo dist lat lon c.idx (dist lat lon c.lat c.lon) cs)

def defaultTrackRow : TrackRow := ⟨none, none, "", none⟩

/-- A constant distance function, used to instantiate the pipeline theorems
at concrete inputs. -/
def constDist (q : ℚ) : Dist := fun _ _ _ _ => q

/-- A result record as pushed by the `POST` loop (note: no `distance_m`
field is pushed in this variant). -/
structure PostResult where
  name : String
  latitude : ℚ
  longitude : ℚ
  logging_time : String
  speed_kmph : Option ℚ
  matched : Bool
deriving DecidableEq

/-- The mutable accumulators of the `POST` loop.  `minSpeed` seeds at
`Number.POSITIVE_INFINITY`, modelled as `none`. -/
structure PostState where
  results : List PostResult
  matchedCount : ℕ
  totalSpeed : ℚ
  speedCount : ℕ
  maxSpeed : ℚ
  minSpeed : Option ℚ
deriving DecidableEq

def postInit : PostState := ⟨[], 0, 0, 0, 0, none⟩

/-- One iteration of `oheData.forEach((oheRow) => ...)` in the `POST`
route: parse the asset's coordinates (return unchanged on `NaN`), query
the index, scan candidates, and either push a matched record (updating the
speed accumulators when the matched fix's speed is numeric) or push an
unmatched record. -/
def postStep (dist : Dist) (track : List TrackRow) (g : Grid) (maxD : ℚ)
    (st : PostState) (a : AssetRow) : PostState :=
  match a.lat, a.lon with
  | some lat, some lon =>
    match selectBest dist lat lon (queryG g lat lon) with
    | some (bi, bd) =>
      if bd ≤ maxD then
        let r := track.getD bi defaultTrackRow
        let st' : PostState :=
          { st with
            results := st.results ++ [⟨a.name, lat, lon, r.time, r.speed, true⟩]
            matchedCount := st.matchedCount + 1 }
        match r.speed with
        | some s =>
          { st' with
            totalSpeed := st'.totalSpeed + s
            speedCount := st'.speedCount + 1
            maxSpeed := max st'.maxSpeed s
            minSpeed := some (match st'.minSpeed with | none => s | some m => min m s) }
        | none => st'
      else
        { st with results := st.results ++ [⟨a.name, lat, lon, "", none, false⟩] }
    | none =>
      { st with results := st.results ++ [⟨a.name, lat, lon, "", none, false⟩] }
  | _, _ => st

def postLoop (dist : Dist) (track : List TrackRow) (g : Grid) (maxD : ℚ)
    (st : PostState) (assets : List AssetRow) : PostState :=
  assets.foldl (postStep dist track g maxD) st

/-- The summary object built by the `POST` route. -/
structure PostSummary where
  total_ohe_structures : ℕ
  matched_structures : ℕ
  unmatched_structures : ℕ
  match_rate : ℚ
  avg_speed : ℚ
  max_speed : ℚ
  min_speed : ℚ
deriving DecidableEq

/-- The `POST` route's core: build the index over the track, run the
matching loop over the assets, and assemble the summary, mirroring the
source's summary expression field by field (including the
`maxSpeed === 0 ? 0 : maxSpeed` and
`minSpeed === Infinity ? 0 : minSpeed` normalisations). -/
def postProcess (dist : Dist) (track : List TrackRow) (assets : List AssetRow)
    (maxD : ℚ) : PostSummary × List PostResult :=
  let g := buildIndex track
  let st := postLoop dist track g maxD postInit assets
  (⟨st.results.length,
    st.matchedCount,
    st.results.length - st.matchedCount,
    if 0 < st.results.length then ((st.matchedCount : ℚ) / st.results.length) * 100 else 0,
    if 0 < st.speedCount then st.totalSpeed / st.speedCount else 0,
    if st.maxSpeed = 0 then 0 else st.maxSpeed,
    match st.minSpeed with | none => 0 | some m => m⟩,
   st.results)

/-- Per-asset outcome of the `POST` loop: `none` when the asset's
coordinates fail to parse (the loop's early `return`), otherwise the
single record the loop pushes for the asset. -/
def matchOnePost (dist : Dist) (track : List TrackRow) (g : Grid) (maxD : ℚ)
    (a : AssetRow) : Option PostResult :=
  match a.lat, a.lon with
  | some lat, some lon =>
    match selectBest dist lat lon (queryG g lat lon) with
    | some (bi, bd) =>
      if bd ≤ maxD then
        let r := track.getD bi defaultTrackRow
        some ⟨a.name, lat, lon, r.time, r.speed, true⟩
      else some ⟨a.name, lat, lon, "", none, false⟩
    | none => some ⟨a.name, lat, lon, "", none, false⟩
  | _, _ => none

/-- The speeds the aggregator accumulates: speeds of matched records whose
speed is a number. -/
def speedsOf (rs : List PostResult) : List ℚ :=
  rs.filterMap fun r => if r.matched then r.speed_kmph else none

/-- One `Math.min` step of the `minSpeed` accumulator (`none` is the
`Infinity` seed). -/
def minFold (acc : Option ℚ) (s : ℚ) : Option ℚ :=
  some (match acc with | none => s | some m => min m s)

/-- Effect of pushing one result on the `POST` accumulators. -/
def applyPost (st : PostState) (r : PostResult) : PostState :=
  let st' : PostState :=
    { st with
      results := st.results ++ [r]
      matchedCount := st.matchedCount + (if r.matched then 1 else 0) }
  match (if r.matched then r.speed_kmph else none) with
  | some s =>
    { st' with
      totalSpeed := st'.totalSpeed + s
      speedCount := st'.speedCount + 1
      maxSpeed := max st'.maxSpeed s
      minSpeed := minFold st'.minSpeed s }
  | none => st'

/-- The `POST` accumulators after appending a whole result list. -/
def combinePost (st : PostState) (rs : List PostResult) : PostState :=
  ⟨st.results ++ rs,
   st.matchedCount + rs.countP (·.matched),
   st.totalSpeed + (speedsOf rs).sum,
   st.speedCount + (speedsOf rs).length,
   (speedsOf rs).foldl max st.maxSpeed,
   (speedsOf rs).foldl minFold st.minSpeed⟩

inductive AssetType where
  | OHE
  | Signal
deriving DecidableEq

/-- An `AnalysisResult` as pushed by `performMatch`.  `distance_m` is
present (and equal to `Math.round(bestDist)`) exactly on matched records. -/
structure LibResult where
  asset_name : String
  asset_type : AssetType
  latitude : ℚ
  longitude : ℚ
  logging_time : String
  speed_kmph : Option ℚ
  matched : Bool
  distance_m : Option ℤ
deriving DecidableEq

/-- The accumulators of `analyzeData` (`results`, `oheMatches`,
`sigMatches`, `totalSpeed`, `speedCount`, `maxSpeed`). -/
structure LibState where
  results : List LibResult
  oheMatches : ℕ
  sigMatches : ℕ
  totalSpeed : ℚ
  speedCount : ℕ
  maxSpeed : ℚ
deriving DecidableEq

def libInit : LibState := ⟨[], 0, 0, 0, 0, 0⟩

/-- The label fallback `assetRow[labelKey] || "Unknown"`. -/
def labelOr (s : String) : String := if s = "" then "Unknown" else s

/-- `performMatch(assetRow, ..., type)`: the per-asset matching helper of
`analyzeData`.  Returns the state unchanged when the asset's coordinates
are `NaN` (the early `return`). -/
def performMatch (dist : Dist) (track : List TrackRow) (g : Grid) (maxD : ℚ)
    (ty : AssetType) (st : LibState) (a : AssetRow) : LibState :=
  match a.lat, a.lon with
  | some lat, some lon =>
    match selectBest dist lat lon (queryG g lat lon) with
    | some (bi, bd) =>
      if bd ≤ maxD then
        let r := track.getD bi defaultTrackRow
        let st' : LibState :=
          { st with
            results := st.results ++
              [⟨labelOr a.name, ty, lat, lon, r.time, r.speed, true, some (jsRound bd)⟩]
            oheMatches := if ty = AssetType.OHE then st.oheMatches + 1 else st.oheMatches
            sigMatches := if ty = AssetType.OHE then st.sigMatches else st.sigMatches + 1 }
        match r.speed with
        | some s =>
          { st' with
            totalSpeed := st'.totalSpeed + s
            speedCount := st'.speedCount + 1
            maxSpeed := max st'.maxSpeed s }
        | none => st'
      else
        { st with results := st.results ++
            [⟨labelOr a.name, ty, lat, lon, "", none, false, none⟩] }
    | none =>
      { st with results := st.results ++
          [⟨labelOr a.name, ty, lat, lon, "", none, false, none⟩] }
  | _, _ => st

/-- The `analyzeData` summary. -/
structure LibSummary where
  total_assets : ℕ
  matched_ohe : ℕ
  matched_signals : ℕ
  avg_speed : ℚ
  max_speed : ℚ
deriving DecidableEq

/-- The core of `analyzeData` after the CSV/column boundary: build the
index over the RTIS rows, run `performMatch` over the OHE rows and then
the signal rows, and assemble the summary. -/
def analyzeData (dist : Dist) (track : List TrackRow)
    (ohe sig : List AssetRow) (maxD : ℚ) : LibSummary × List LibResult :=
  let g := buildIndex track
  let st1 := (ohe.foldl (performMatch dist track g maxD AssetType.OHE) libInit)
  let st2 := (sig.foldl (performMatch dist track g maxD AssetType.Signal) st1)
  (⟨st2.results.length,
    st2.oheMatches,
    st2.sigMatches,
    if 0 < st2.speedCount then st2.totalSpeed / st2.speedCount else 0,
    st2.maxSpeed⟩,
   st2.results)

/-- Per-asset outcome of `performMatch`: `none` when the asset's
coordinates fail to parse, otherwise the single record pushed. -/
def matchOneLib (dist : Dist) (track : List TrackRow) (g : Grid) (maxD : ℚ)
    (ty : AssetType) (a : AssetRow) : Option LibResult :=
  match a.lat, a.lon with
  | some lat, some lon =>
    match selectBest dist lat lon (queryG g lat lon) with
    | some (bi, bd) =>
      if bd ≤ maxD then
        let r := track.getD bi defaultTrackRow
        some ⟨labelOr a.name, ty, lat, lon, r.time, r.speed, true, some (jsRound bd)⟩
      else some ⟨labelOr a.name, ty, lat, lon, "", none, false, none⟩
    | none => some ⟨labelOr a.name, ty, lat, lon, "", none, false, none⟩
  | _, _ => none

def speedsOfLib (rs : List LibResult) : List ℚ :=
  rs.filterMap fun r => if r.matched then r.speed_kmph else none

def isMatchedOhe (r : LibResult) : Bool := r.matched && decide (r.asset_type = AssetType.OHE)

def isMatchedSig (r : LibResult) : Bool := r.matched && decide (r.asset_type = AssetType.Signal)

/-- Effect of pushing one result on the `analyzeData` accumulators. -/
def applyLib (st : LibState) (r : LibResult) : LibState :=
  let st' : LibState :=
    { st with
      results := st.results ++ [r]
      oheMatches := st.oheMatches + (if isMatchedOhe r then 1 else 0)
      sigMatches := st.sigMatches + (if isMatchedSig r then 1 else 0) }
  match (if r.matched then r.speed_kmph else none) with
  | some s =>
    { st' with
      totalSpeed := st'.totalSpeed + s
      speedCount := st'.speedCount + 1
      maxSpeed := max st'.maxSpeed s }
  | none => st'

def combineLib (st : LibState) (rs : List LibResult) : LibState :=
  ⟨st.results ++ rs,
   st.oheMatches + rs.countP isMatchedOhe,
   st.sigMatches + rs.countP isMatchedSig,
   st.totalSpeed + (speedsOfLib rs).sum,
   st.speedCount + (speedsOfLib rs).length,
   (speedsOfLib rs).foldl max st.maxSpeed⟩

/-- All records `analyzeData` accumulates, as a pure function of the two
asset lists: the OHE records then the signal records, each in input
order. -/
def libResults (dist : Dist) (track : List TrackRow) (g : Grid) (maxD : ℚ)
    (ohe sig : List AssetRow) : List LibResult :=
  ohe.filterMap (matchOneLib dist track g maxD AssetType.OHE) ++
    sig.filterMap (matchOneLib dist track g maxD AssetType.Signal)

/-- The entries the index loop inserts, with their `forEach` indices
counted from `i`: one entry per row with parsable coordinates, rows with
unparsable coordinates consuming an index but contributing nothing. -/
def validEntriesFrom (i : ℕ) : List TrackRow → List Entry
  | [] => []
  | r :: rs =>
    match r.lat, r.lon with
    | some la, some lo => ⟨i, la, lo⟩ :: validEntriesFrom (i + 1) rs
    | _, _ => validEntriesFrom (i + 1) rs

def validEntries (track : List TrackRow) : List Entry := validEntriesFrom 0 track

/-- The 3×3 block of cell offsets, in the source's probe order. -/
def offsets9 : List (ℤ × ℤ) :=
  [(-1, -1), (-1, 0), (-1, 1), (0, -1), (0, 0), (0, 1), (1, -1), (1, 0), (1, 1)]

def postOutput (st : PostState) : PostSummary × List PostResult :=
  (⟨st.results.length,
    st.matchedCount,
    st.results.length - st.matchedCount,
    if 0 < st.results.length then ((st.matchedCount : ℚ) / st.results.length) * 100 else 0,
    if 0 < st.speedCount then st.totalSpeed / st.speedCount else 0,
    if st.maxSpeed = 0 then 0 else st.maxSpeed,
    match st.minSpeed with | none => 0 | some m => m⟩,
   st.results)

def libOutput (st2 : LibState) : LibSummary × List LibResult :=
  (⟨st2.results.length,
    st2.oheMatches,
    st2.sigMatches,
    if 0 < st2.speedCount then st2.totalSpeed / st2.speedCount else 0,
    st2.maxSpeed⟩,
   st2.results)

/-- Renaming of entry indices. -/
def reEntry (f : ℕ → ℕ) (e : Entry) : Entry := ⟨f e.idx, e.lat, e.lon⟩

def gridMapIdx (f : ℕ → ℕ) (g : Grid) : Grid := fun k => (g k).map (reEntry f)

/-- The index renaming induced by re-inserting a row at position `k`:
positions `≥ k` shift up by one. -/
def shiftFrom (k j : ℕ) : ℕ := if j < k then j else j + 1

/-- `split` of a character list at a separator, with JavaScript
`String.prototype.split` semantics (`"".split(c) = [""]`,
`"a,".split(",") = ["a", ""]`). -/
def splitOnChar (c : Char) : List Char → List (List Char)
  | [] => [[]]
  | x :: xs =>
    let r := splitOnChar c xs
    if x = c then [] :: r
    else
      match r with
      | [] => [[x]]
      | g :: gs => (x :: g) :: gs

/-- JavaScript `String.prototype.trim`: strip whitespace from both ends. -/
def trimChars (cs : List Char) : List Char :=
  ((cs.dropWhile Char.isWhitespace).reverse.dropWhile Char.isWhitespace).reverse

/-- Value of a digit run, most significant first. -/
def digitsToNat (ds : List Char) : ℕ := ds.foldl (fun n c => 10 * n + (c.toNat - 48)) 0

/-- Unsigned part of `Number.parseFloat`: longest `digits[.digits]` prefix;
`none` (NaN) when no digit is found. -/
def parseUnsigned (cs : List Char) : Option ℚ :=
  let ip := cs.takeWhile Char.isDigit
  let rest := cs.dropWhile Char.isDigit
  let fp :=
    match rest with
    | '.' :: t => t.takeWhile Char.isDigit
    | _ => []
  if ip.isEmpty && fp.isEmpty then none
  else some ((digitsToNat ip : ℚ) + (digitsToNat fp : ℚ) / (10 : ℚ) ^ fp.length)

/-- JavaScript `Number.parseFloat` on the decimal forms exercised by this
development (optional whitespace, optional sign, digits with an optional
fractional part, trailing junk ignored); `none` models `NaN`.  Exponent
and hexadecimal forms do not occur in the modelled data. -/
def parseFloatChars (cs : List Char) : Option ℚ :=
  match cs.dropWhile Char.isWhitespace with
  | '-' :: t => (parseUnsigned t).map (fun q => -q)
  | '+' :: t => parseUnsigned t
  | cs1 => parseUnsigned cs1

/-- `Number.parseFloat` applied to a possibly-`undefined` string
(`parseFloat(undefined)` is `NaN`). -/
def jsParseFloat (s : Option String) : Option ℚ :=
  s.bind fun str => parseFloatChars str.data

/-- JavaScript `String.prototype.toLowerCase` (ASCII range, which is all
`findColumn` is used with). -/
def jsToLower (s : String) : String := String.mk (s.data.map Char.toLower)

/-- A parsed CSV row: the `Object.keys` insertion order and the field
lookup (`none` models reading an absent property, i.e. `undefined`). -/
structure RawRow where
  keys : List String
  val : String → Option String

/-- `Object.keys` order of a row built by assigning the headers in order:
first occurrence of each header. -/
def dedupKeys (seen : List String) : List String → List String
  | [] => []
  | h :: t => if h ∈ seen then dedupKeys seen t else h :: dedupKeys (h :: seen) t

/-- Build one row object: `headers.forEach((header, index) =>
row[header] = values[index] || "")`; a later duplicate header overwrites an
earlier one, and a missing value cell becomes `""`. -/
def mkRow (headers values : List String) : RawRow :=
  ⟨dedupKeys [] headers,
   fun k =>
     match (headers.enum.filter (fun p => p.2 = k)).getLast? with
     | some p => some (values.getD p.1 "")
     | none => none⟩

/-- `parseCSV`: split into nonblank lines, first line is the header row,
each further line becomes a row object; fewer than two nonblank lines
yield no data. -/
def parseCSV (content : String) : List RawRow :=
  let lines := (splitOnChar '\n' content.data).filter (fun l => trimChars l ≠ [])
  if lines.length < 2 then []
  else
    let headers := (splitOnChar ',' (lines.headD [])).map fun cs => String.mk (trimChars cs)
    (lines.drop 1).map fun line =>
      mkRow headers ((splitOnChar ',' line).map fun cs => String.mk (trimChars cs))

/-- `findColumn(data, names)`: first header of the first row matching one
of the candidate names case-insensitively; `null` on empty data or no
match. -/
def findColumn (data : List RawRow) (names : List String) : Option String :=
  match data with
  | [] => none
  | row :: _ => names.findSome? fun n => row.keys.find? fun h => jsToLower h = jsToLower n

/-- Conversion of the parsed RTIS rows into track rows, mirroring the uses
`Number.parseFloat(row[rtisLat])`, `rtisTime ? rtisRow[rtisTime] : ""`,
`rtisSpeed ? Number.parseFloat(rtisRow[rtisSpeed]) : null` of the route. -/
def mkTrackRows (data : List RawRow) (latK lonK : String)
    (timeK speedK : Option String) : List TrackRow :=
  data.map fun row =>
    ⟨jsParseFloat (row.val latK),
     jsParseFloat (row.val lonK),
     (match timeK with | some k => (row.val k).getD "" | none => ""),
     (match speedK with | some k => jsParseFloat (row.val k) | none => none)⟩

/-- Conversion of the parsed OHE rows into asset rows
(`oheRow[oheLabel] || ""`, `Number.parseFloat(oheRow[oheLat])`, ...). -/
def mkAssetRows (data : List RawRow) (latK lonK labelK : String) : List AssetRow :=
  data.map fun row =>
    ⟨(row.val labelK).getD "", jsParseFloat (row.val latK), jsParseFloat (row.val lonK)⟩

/-- The `POST` route from the file contents on: threshold defaulting
(`Number.parseFloat(...) || 50`), CSV parsing, column resolution with the
single 400 response when a latitude/longitude column is missing, then the
core `postProcess`.  The earlier both-files-present check concerns the
multipart form, before any data exists, and is outside this data model. -/
def POSTroute (dist : Dist) (rtisContent oheContent : String)
    (maxRaw : Option String) : Except String (PostSummary × List PostResult) :=
  match findColumn (parseCSV rtisContent) ["Latitude", "latitude", "lat"],
    findColumn (parseCSV rtisContent) ["Longitude", "longitude", "lon"],
    findColumn (parseCSV oheContent) ["Latitude", "latitude", "lat"],
    findColumn (parseCSV oheContent) ["Longitude", "longitude", "lon"] with
  | some rla, some rlo, some ola, some olo =>
    Except.ok (postProcess dist
      (mkTrackRows (parseCSV rtisContent) rla rlo
        (findColumn (parseCSV rtisContent) ["Logging Time", "LoggingTime", "timestamp"])
        (findColumn (parseCSV rtisContent) ["Speed", "speed", "speed_kmph"]))
      (mkAssetRows (parseCSV oheContent) ola olo
        ((findColumn (parseCSV oheContent) ["OHEMas", "OHE", "pole", "pole_label"]).getD
          "OHEMas"))
      (match jsParseFloat maxRaw with
        | none => 50
        | some q => if q = 0 then 50 else q))
  | _, _, _, _ => Except.error "Required latitude/longitude columns not found"

/-- JavaScript `Math.atan2` on the reals. -/
noncomputable def atan2 (y x : ℝ) : ℝ :=
  if 0 < x then Real.arctan (y / x)
  else if x < 0 ∧ 0 ≤ y then Real.arctan (y / x) + Real.pi
  else if x < 0 then Real.arctan (y / x) - Real.pi
  else if 0 < y then Real.pi / 2
  else if y < 0 then -(Real.pi / 2)
  else 0

/-- The intermediate `a` of `haversineMeters`:
`sin(dphi/2)^2 + cos(phi1) * cos(phi2) * sin(dlambda/2)^2`. -/
noncomputable def havA (lat1 lon1 lat2 lon2 : ℝ) : ℝ :=
  Real.sin ((lat2 - lat1) * Real.pi / 180 / 2) ^ 2 +
    Real.cos (lat1 * Real.pi / 180) * Real.cos (lat2 * Real.pi / 180) *
      Real.sin ((lon2 - lon1) * Real.pi / 180 / 2) ^ 2

/-- `haversineMeters`: `R * c` with `R = 6371000` and
`c = 2 * atan2(sqrt(a), sqrt(1 - a))`, inputs in degrees. -/
noncomputable def haversineMeters (lat1 lon1 lat2 lon2 : ℝ) : ℝ :=
  6371000 *
    (2 * atan2 (Real.sqrt (havA lat1 lon1 lat2 lon2))
      (Real.sqrt (1 - havA lat1 lon1 lat2 lon2)))

/-! ## Theorems -/

theorem jsFloor_eq (q : ℚ) : jsFloor q = ⌊q⌋ := by
  rw [jsFloor, Rat.floor_def]

theorem jsRound_eq (q : ℚ) : jsRound q = ⌊q + 1/2⌋ := jsFloor_eq _

theorem jsRound_mono {a b : ℚ} (h : a ≤ b) : jsRound a ≤ jsRound b := by
  rw [jsRound_eq, jsRound_eq]
  exact Int.floor_mono (by linarith)

theorem postStep_eq (dist : Dist) (track : List TrackRow) (g : Grid) (maxD : ℚ)
    (st : PostState) (a : AssetRow) :
    postStep dist track g maxD st a =
      match matchOnePost dist track g maxD a with
      | none => st
      | some r => applyPost st r := by
  unfold postStep matchOnePost
  rcases a with ⟨n, la, lo⟩
  rcases la with _ | la <;> rcases lo with _ | lo <;> simp only []
  rcases h : selectBest dist la lo (queryG g la lo) with _ | ⟨bi, bd⟩
  · simp [applyPost]
  · simp only [h]
    by_cases hle : bd ≤ maxD
    · simp only [if_pos hle]
      rcases hs : (track.getD bi defaultTrackRow).speed with _ | s <;>
        simp [applyPost, hs, minFold]
    · simp [if_neg hle, applyPost]

theorem combinePost_nil (st : PostState) : combinePost st [] = st := by
  simp [combinePost, speedsOf]

theorem speedsOf_cons (r : PostResult) (rs : List PostResult) :
    speedsOf (r :: rs) =
      match (if r.matched then r.speed_kmph else none) with
      | some s => s :: speedsOf rs
      | none => speedsOf rs := by
  rcases h : (if r.matched then r.speed_kmph else none) with _ | s <;>
    simp [speedsOf, List.filterMap_cons, h]

theorem combinePost_applyPost (st : PostState) (r : PostResult) (rs : List PostResult) :
    combinePost (applyPost st r) rs = combinePost st (r :: rs) := by
  rcases hs : (if r.matched then r.speed_kmph else none) with _ | s <;>
    (simp [applyPost, combinePost, hs, speedsOf_cons r rs, List.countP_cons, add_assoc,
      add_comm (if r.matched = true then 1 else 0)]; try ring_nf)

theorem postLoop_eq (dist : Dist) (track : List TrackRow) (g : Grid) (maxD : ℚ)
    (st : PostState) (assets : List AssetRow) :
    postLoop dist track g maxD st assets =
      combinePost st (assets.filterMap (matchOnePost dist track g maxD)) := by
  induction assets generalizing st with
  | nil => simp [postLoop, combinePost_nil]
  | cons a as ih =>
    have hstep := postStep_eq dist track g maxD st a
    rcases h : matchOnePost dist track g maxD a with _ | r
    · rw [h] at hstep
      simp only [postLoop, List.foldl_cons] at *
      rw [hstep, List.filterMap_cons, h]
      exact ih st
    · rw [h] at hstep
      simp only [postLoop, List.foldl_cons] at *
      rw [hstep, List.filterMap_cons, h, ← combinePost_applyPost]
      exact ih (applyPost st r)

theorem performMatch_eq (dist : Dist) (track : List TrackRow) (g : Grid) (maxD : ℚ)
    (ty : AssetType) (st : LibState) (a : AssetRow) :
    performMatch dist track g maxD ty st a =
      match matchOneLib dist track g maxD ty a with
      | none => st
      | some r => applyLib st r := by
  unfold performMatch matchOneLib
  rcases a with ⟨n, la, lo⟩
  rcases la with _ | la <;> rcases lo with _ | lo <;> simp only []
  rcases h : selectBest dist la lo (queryG g la lo) with _ | ⟨bi, bd⟩
  · cases ty <;> simp [applyLib, isMatchedOhe, isMatchedSig]
  · simp only [h]
    by_cases hle : bd ≤ maxD
    · simp only [if_pos hle]
      rcases hs : (track.getD bi defaultTrackRow).speed with _ | s <;>
        cases ty <;> simp [applyLib, hs, isMatchedOhe, isMatchedSig]
    · cases ty <;> simp [if_neg hle, applyLib, isMatchedOhe, isMatchedSig]

theorem combineLib_nil (st : LibState) : combineLib st [] = st := by
  simp [combineLib, speedsOfLib]

theorem speedsOfLib_cons (r : LibResult) (rs : List LibResult) :
    speedsOfLib (r :: rs) =
      match (if r.matched then r.speed_kmph else none) with
      | some s => s :: speedsOfLib rs
      | none => speedsOfLib rs := by
  rcases h : (if r.matched then r.speed_kmph else none) with _ | s <;>
    simp [speedsOfLib, List.filterMap_cons, h]

theorem combineLib_applyLib (st : LibState) (r : LibResult) (rs : List LibResult) :
    combineLib (applyLib st r) rs = combineLib st (r :: rs) := by
  rcases hs : (if r.matched then r.speed_kmph else none) with _ | s <;>
    (simp [applyLib, combineLib, hs, speedsOfLib_cons r rs, List.countP_cons, add_assoc,
      add_comm (if isMatchedOhe r then 1 else 0), add_comm (if isMatchedSig r then 1 else 0)];
     try ring_nf)

theorem libLoop_eq (dist : Dist) (track : List TrackRow) (g : Grid) (maxD : ℚ)
    (ty : AssetType) (st : LibState) (assets : List AssetRow) :
    assets.foldl (performMatch dist track g maxD ty) st =
      combineLib st (assets.filterMap (matchOneLib dist track g maxD ty)) := by
  induction assets generalizing st with
  | nil => simp [combineLib_nil]
  | cons a as ih =>
    have hstep := performMatch_eq dist track g maxD ty st a
    rcases h : matchOneLib dist track g maxD ty a with _ | r
    · rw [h] at hstep
      simp only [List.foldl_cons]
      rw [hstep, List.filterMap_cons, h]
      exact ih st
    · rw [h] at hstep
      simp only [List.foldl_cons]
      rw [hstep, List.filterMap_cons, h, ← combineLib_applyLib]
      exact ih (applyLib st r)

theorem speedsOfLib_append (l1 l2 : List LibResult) :
    speedsOfLib (l1 ++ l2) = speedsOfLib l1 ++ speedsOfLib l2 := by
  simp [speedsOfLib, List.filterMap_append]

theorem combineLib_append (st : LibState) (l1 l2 : List LibResult) :
    combineLib st (l1 ++ l2) = combineLib (combineLib st l1) l2 := by
  simp [combineLib, speedsOfLib_append, List.countP_append, List.foldl_append, add_assoc]

theorem analyzeData_state (dist : Dist) (track : List TrackRow)
    (ohe sig : List AssetRow) (maxD : ℚ) :
    (sig.foldl (performMatch dist track (buildIndex track) maxD AssetType.Signal)
        (ohe.foldl (performMatch dist track (buildIndex track) maxD AssetType.OHE) libInit)) =
      combineLib libInit (libResults dist track (buildIndex track) maxD ohe sig) := by
  rw [libLoop_eq, libLoop_eq]
  unfold libResults
  rw [combineLib_append]

theorem analyzeData_results (dist : Dist) (track : List TrackRow)
    (ohe sig : List AssetRow) (maxD : ℚ) :
    (analyzeData dist track ohe sig maxD).2 =
      libResults dist track (buildIndex track) maxD ohe sig := by
  show (sig.foldl (performMatch dist track (buildIndex track) maxD AssetType.Signal)
      (ohe.foldl (performMatch dist track (buildIndex track) maxD AssetType.OHE) libInit)).results = _
  rw [analyzeData_state]
  simp [combineLib, libInit]

theorem buildAux_bucket (rows : List TrackRow) :
    ∀ (g : Grid) (i : ℕ) (key : ℤ × ℤ),
      buildAux g i rows key =
        g key ++ (validEntriesFrom i rows).filter (fun e => cellKey e.lat e.lon = key) := by
  induction rows with
  | nil => intro g i key; simp [buildAux, validEntriesFrom]
  | cons r rs ih =>
    intro g i key
    rcases hla : r.lat with _ | la <;> rcases hlo : r.lon with _ | lo <;>
      simp only [buildAux, validEntriesFrom, hla, hlo]
    case some.some =>
      rw [ih]
      by_cases hk : cellKey la lo = key
      · simp [insertG, hk, List.filter_cons]
      · have hk' : ¬(key = cellKey la lo) := fun h => hk h.symm
        simp [insertG, hk, hk', List.filter_cons]
    all_goals exact ih g (i + 1) key

theorem buildIndex_bucket (rows : List TrackRow) :
    buildIndex rows = fun key =>
      (validEntries rows).filter (fun e => cellKey e.lat e.lon = key) := by
  funext key
  rw [buildIndex, buildAux_bucket rows emptyGrid 0 key]
  simp [emptyGrid, validEntries]

theorem neighborhood_eq_map (la lo : ℚ) :
    neighborhood la lo =
      offsets9.map (fun d => ((cellKey la lo).1 + d.1, (cellKey la lo).2 + d.2)) := rfl

theorem neighborhood_nodup (la lo : ℚ) : (neighborhood la lo).Nodup := by
  rw [neighborhood_eq_map]
  refine List.Nodup.map ?_ (by decide)
  intro a b hab
  have h1 := congrArg Prod.fst hab
  have h2 := congrArg Prod.snd hab
  simp only [] at h1 h2
  exact Prod.ext (by omega) (by omega)

theorem mem_neighborhood (la lo : ℚ) (k : ℤ × ℤ) :
    k ∈ neighborhood la lo ↔
      |k.1 - jsFloor (la / gridDeg)| ≤ 1 ∧ |k.2 - jsFloor (lo / gridDeg)| ≤ 1 := by
  rw [neighborhood_eq_map]
  simp only [List.mem_map, offsets9, cellKey]
  constructor
  · rintro ⟨d, hd, rfl⟩
    fin_cases hd <;> constructor <;> simp
  · rintro ⟨h1, h2⟩
    refine ⟨(k.1 - jsFloor (la / gridDeg), k.2 - jsFloor (lo / gridDeg)), ?_, ?_⟩
    · simp only [List.mem_cons, List.mem_singleton]
      have := abs_le.mp h1
      have := abs_le.mp h2
      rcases k with ⟨k1, k2⟩
      simp only [Prod.mk.injEq]
      omega
    · simp

theorem filter_or_perm {α : Type} (p q : α → Bool) :
    ∀ (l : List α), (∀ x ∈ l, ¬(p x = true ∧ q x = true)) →
      (l.filter p ++ l.filter q).Perm (l.filter (fun x => p x || q x)) := by
  intro l
  induction l with
  | nil => intro _; simp
  | cons x xs ih =>
    intro h
    have hx := h x (List.mem_cons_self x xs)
    have hxs : ∀ y ∈ xs, ¬(p y = true ∧ q y = true) :=
      fun y hy => h y (List.mem_cons_of_mem x hy)
    have hperm := ih hxs
    rcases hp : p x with _ | _ <;> rcases hq : q x with _ | _
    · simpa [List.filter_cons, hp, hq] using hperm
    · simp only [List.filter_cons, hp, hq, Bool.false_or, Bool.false_eq_true, ite_false,
        ite_true]
      exact List.perm_middle.trans (hperm.cons x)
    · simp only [List.filter_cons, hp, hq, Bool.true_or, Bool.false_eq_true, ite_false,
        ite_true, List.cons_append]
      exact hperm.cons x
    · exact absurd ⟨hp, hq⟩ hx

theorem flatMap_filter_perm (l : List Entry) :
    ∀ (ks : List (ℤ × ℤ)), ks.Nodup →
      (ks.flatMap fun k => l.filter fun e => cellKey e.lat e.lon = k).Perm
        (l.filter fun e => decide (cellKey e.lat e.lon ∈ ks)) := by
  intro ks
  induction ks with
  | nil => intro _; simp
  | cons k ks ih =>
    intro hnd
    rcases List.nodup_cons.mp hnd with ⟨hk, hks⟩
    simp only [List.flatMap_cons]
    have step1 :
        ((l.filter fun e => cellKey e.lat e.lon = k) ++
          (ks.flatMap fun k' => l.filter fun e => cellKey e.lat e.lon = k')).Perm
        ((l.filter fun e => cellKey e.lat e.lon = k) ++
          l.filter fun e => decide (cellKey e.lat e.lon ∈ ks)) :=
      (ih hks).append_left _
    refine step1.trans ?_
    have step2 := filter_or_perm (fun e => decide (cellKey e.lat e.lon = k))
      (fun e => decide (cellKey e.lat e.lon ∈ ks)) l ?_
    · refine step2.trans ?_
      have : (fun e : Entry => decide (cellKey e.lat e.lon = k) ||
          decide (cellKey e.lat e.lon ∈ ks)) =
          fun e : Entry => decide (cellKey e.lat e.lon ∈ k :: ks) := by
        funext e
        simp [List.mem_cons]
      rw [this]
    · intro e _ ⟨h1, h2⟩
      exact hk (by
        have h1' : cellKey e.lat e.lon = k := of_decide_eq_true h1
        have h2' : cellKey e.lat e.lon ∈ ks := of_decide_eq_true h2
        rwa [h1'] at h2')

/-- The query over a built index is, up to order, exactly the set of
inserted fixes whose cell lies in the 3×3 neighborhood of the query
point's cell. -/
theorem queryG_perm (rows : List TrackRow) (la lo : ℚ) :
    (queryG (buildIndex rows) la lo).Perm
      ((validEntries rows).filter
        fun e => decide (cellKey e.lat e.lon ∈ neighborhood la lo)) := by
  rw [queryG, buildIndex_bucket]
  exact flatMap_filter_perm (validEntries rows) (neighborhood la lo) (neighborhood_nodup la lo)

theorem selGo_min (dist : Dist) (la lo : ℚ) :
    ∀ (cs : List Entry) (bi : ℕ) (bd : ℚ),
      (selGo dist la lo bi bd cs).2 ≤ bd ∧
        ∀ c ∈ cs, (selGo dist la lo bi bd cs).2 ≤ dist la lo c.lat c.lon := by
  intro cs
  induction cs with
  | nil => intro bi bd; simp [selGo]
  | cons c cs ih =>
    intro bi bd
    by_cases h : dist la lo c.lat c.lon < bd
    · simp only [selGo, if_pos h]
      rcases ih c.idx (dist la lo c.lat c.lon) with ⟨h1, h2⟩
      exact ⟨h1.trans h.le, by
        intro c' hc'
        rcases List.mem_cons.mp hc' with rfl | hc'
        · exact h1
        · exact h2 c' hc'⟩
    · simp only [selGo, if_neg h]
      rcases ih bi bd with ⟨h1, h2⟩
      exact ⟨h1, by
        intro c' hc'
        rcases List.mem_cons.mp hc' with rfl | hc'
        · exact h1.trans (not_lt.mp h)
        · exact h2 c' hc'⟩

theorem selGo_first (dist : Dist) (la lo : ℚ) :
    ∀ (cs : List Entry) (bi : ℕ) (bd : ℚ),
      selGo dist la lo bi bd cs = (bi, bd) ∨
        ∃ j, ∃ hj : j < cs.length,
          (cs.get ⟨j, hj⟩).idx = (selGo dist la lo bi bd cs).1 ∧
          dist la lo (cs.get ⟨j, hj⟩).lat (cs.get ⟨j, hj⟩).lon =
            (selGo dist la lo bi bd cs).2 ∧
          (selGo dist la lo bi bd cs).2 < bd ∧
          ∀ m, ∀ hm : m < cs.length, m < j →
            (selGo dist la lo bi bd cs).2 < dist la lo (cs.get ⟨m, hm⟩).lat (cs.get ⟨m, hm⟩).lon := by
  intro cs
  induction cs with
  | nil => intro bi bd; left; rfl
  | cons c cs ih =>
    intro bi bd
    by_cases h : dist la lo c.lat c.lon < bd
    · simp only [selGo, if_pos h]
      right
      rcases ih c.idx (dist la lo c.lat c.lon) with heq | ⟨j, hj, hidx, hdist, hlt, hfirst⟩
      · refine ⟨0, by simp, ?_, ?_, ?_, ?_⟩
        · simp [heq]
        · simp [heq]
        · rw [heq]; exact h
        · intro m hm hm0
          omega
      · refine ⟨j + 1, by simpa using Nat.succ_lt_succ hj, by simpa using hidx,
          by simpa using hdist, hlt.trans h, ?_⟩
        intro m hm hmj
        rcases m with _ | m
        · exact hlt
        · exact hfirst m (by simpa using hm) (by omega)
    · simp only [selGo, if_neg h]
      rcases ih bi bd with heq | ⟨j, hj, hidx, hdist, hlt, hfirst⟩
      · left; exact heq
      · right
        refine ⟨j + 1, by simpa using Nat.succ_lt_succ hj, by simpa using hidx,
          by simpa using hdist, hlt, ?_⟩
        intro m hm hmj
        rcases m with _ | m
        · exact hlt.trans_le (not_lt.mp h)
        · exact hfirst m (by simpa using hm) (by omega)

/-- The scan selects the minimum distance, and on ties the first candidate
in enumeration order: the winner's distance is a lower bound for all
candidate distances, and every earlier candidate is strictly farther. -/
theorem selectBest_spec (dist : Dist) (la lo : ℚ) (cs : List Entry) (p : ℕ × ℚ)
    (h : selectBest dist la lo cs = some p) :
    ∃ j, ∃ hj : j < cs.length,
      (cs.get ⟨j, hj⟩).idx = p.1 ∧
      dist la lo (cs.get ⟨j, hj⟩).lat (cs.get ⟨j, hj⟩).lon = p.2 ∧
      (∀ m, ∀ hm : m < cs.length, p.2 ≤ dist la lo (cs.get ⟨m, hm⟩).lat (cs.get ⟨m, hm⟩).lon) ∧
      (∀ m, ∀ hm : m < cs.length, m < j →
        p.2 < dist la lo (cs.get ⟨m, hm⟩).lat (cs.get ⟨m, hm⟩).lon) := by
  rcases cs with _ | ⟨c, cs⟩
  · exact absurd h (by simp [selectBest])
  · have hp : p = selGo dist la lo c.idx (dist la lo c.lat c.lon) cs := by
      have := h
      simp only [selectBest, Option.some.injEq] at this
      exact this.symm
    subst hp
    rcases selGo_min dist la lo cs c.idx (dist la lo c.lat c.lon) with ⟨hmin0, hminrest⟩
    rcases selGo_first dist la lo cs c.idx (dist la lo c.lat c.lon) with heq |
      ⟨j, hj, hidx, hdist, hlt, hfirst⟩
    · refine ⟨0, by simp, ?_, ?_, ?_, ?_⟩
      · simp [heq]
      · simp [heq]
      · intro m hm
        rcases m with _ | m
        · simp [heq]
        · simpa [heq] using hminrest _ (cs.get_mem m (by simpa using hm))
      · intro m hm hm0
        omega
    · refine ⟨j + 1, by simpa using Nat.succ_lt_succ hj, by simpa using hidx,
        by simpa using hdist, ?_, ?_⟩
      · intro m hm
        rcases m with _ | m
        · exact hmin0
        · exact hminrest _ (cs.get_mem m (by simpa using hm))
      · intro m hm hmj
        rcases m with _ | m
        · exact hlt
        · exact hfirst m (by simpa using hm) (by omega)

theorem postProcess_as_state (dist : Dist) (track : List TrackRow)
    (assets : List AssetRow) (maxD : ℚ) :
    postProcess dist track assets maxD =
      postOutput (combinePost postInit
        (assets.filterMap (matchOnePost dist track (buildIndex track) maxD))) :=
  congrArg postOutput (postLoop_eq dist track (buildIndex track) maxD postInit assets)

theorem analyzeData_as_state (dist : Dist) (track : List TrackRow)
    (ohe sig : List AssetRow) (maxD : ℚ) :
    analyzeData dist track ohe sig maxD =
      libOutput (combineLib libInit (libResults dist track (buildIndex track) maxD ohe sig)) :=
  congrArg libOutput (analyzeData_state dist track ohe sig maxD)

theorem gridMapIdx_insertG (f : ℕ → ℕ) (g : Grid) (i : ℕ) (la lo : ℚ) :
    gridMapIdx f (insertG g i la lo) = insertG (gridMapIdx f g) (f i) la lo := by
  funext k
  by_cases hk : k = cellKey la lo <;> simp [gridMapIdx, insertG, hk, reEntry]

theorem buildAux_shift (k : ℕ) :
    ∀ (ys : List TrackRow) (g : Grid) (j : ℕ), k ≤ j →
      buildAux (gridMapIdx (shiftFrom k) g) (j + 1) ys =
        gridMapIdx (shiftFrom k) (buildAux g j ys) := by
  intro ys
  induction ys with
  | nil => intro g j _; rfl
  | cons y ys ih =>
    intro g j hj
    rcases hla : y.lat with _ | la <;> rcases hlo : y.lon with _ | lo <;>
      simp only [buildAux, hla, hlo]
    case some.some =>
      have hjj : shiftFrom k j = j + 1 := by simp [shiftFrom, Nat.not_lt.mpr hj]
      rw [show insertG (gridMapIdx (shiftFrom k) g) (j + 1) la lo =
            gridMapIdx (shiftFrom k) (insertG g j la lo) from by
          rw [gridMapIdx_insertG, hjj]]
      exact ih (insertG g j la lo) (j + 1) (hj.trans (Nat.le_succ j))
    all_goals exact ih g (j + 1) (hj.trans (Nat.le_succ j))

theorem buildAux_entry_bound :
    ∀ (xs : List TrackRow) (g : Grid) (i : ℕ) (key : ℤ × ℤ) (e : Entry),
      e ∈ buildAux g i xs key → e ∈ g key ∨ (i ≤ e.idx ∧ e.idx < i + xs.length) := by
  intro xs
  induction xs with
  | nil => intro g i key e h; exact Or.inl h
  | cons x xs ih =>
    intro g i key e h
    rcases hla : x.lat with _ | la <;> rcases hlo : x.lon with _ | lo <;>
      rw [buildAux] at h <;> simp only [hla, hlo] at h
    case some.some =>
      rcases ih _ _ _ _ h with hmem | hrange
      · by_cases hk : key = cellKey la lo
        · rw [insertG] at hmem
          simp only [if_pos hk, List.mem_append, List.mem_singleton] at hmem
          rcases hmem with hmem | rfl
          · exact Or.inl hmem
          · right
            simp only [List.length_cons]
            exact ⟨le_refl i, by omega⟩
        · rw [insertG] at hmem
          simp only [if_neg hk] at hmem
          exact Or.inl hmem
      · right; simp only [List.length_cons]; omega
    all_goals
      rcases ih _ _ _ _ h with hmem | hrange
      · exact Or.inl hmem
      · right; simp only [List.length_cons]; omega

theorem gridMapIdx_id_of_bound (k : ℕ) (g : Grid)
    (hb : ∀ key e, e ∈ g key → e.idx < k) :
    gridMapIdx (shiftFrom k) g = g := by
  funext key
  rw [gridMapIdx]
  rw [List.map_congr_left (fun e he => ?_), List.map_id]
  have := hb key e he
  simp [reEntry, shiftFrom, this]

theorem buildAux_append (xs : List TrackRow) :
    ∀ (ys : List TrackRow) (g : Grid) (i : ℕ),
      buildAux g i (xs ++ ys) = buildAux (buildAux g i xs) (i + xs.length) ys := by
  induction xs with
  | nil => intro ys g i; simp [buildAux]
  | cons x xs ih =>
    intro ys g i
    rcases hla : x.lat with _ | la <;> rcases hlo : x.lon with _ | lo <;>
      simp only [List.cons_append, buildAux, hla, hlo, List.length_cons, List.append_eq]
    case some.some =>
      rw [show i + (xs.length + 1) = (i + 1) + xs.length from by omega, ih]
    all_goals rw [show i + (xs.length + 1) = (i + 1) + xs.length from by omega, ih]

theorem buildIndex_drop_bad (t1 t2 : List TrackRow) (bad : TrackRow)
    (hbad : bad.lat = none ∨ bad.lon = none) :
    buildIndex (t1 ++ bad :: t2) =
      gridMapIdx (shiftFrom t1.length) (buildIndex (t1 ++ t2)) := by
  have hG1 : ∀ key e, e ∈ buildAux emptyGrid 0 t1 key → e.idx < t1.length := by
    intro key e h
    rcases buildAux_entry_bound t1 emptyGrid 0 key e h with hmem | hrange
    · exact absurd hmem (by simp [emptyGrid])
    · omega
  have hskip : buildAux (buildAux emptyGrid 0 t1) t1.length (bad :: t2) =
      buildAux (buildAux emptyGrid 0 t1) (t1.length + 1) t2 := by
    rcases hbad with h | h
    · rw [buildAux]
      rcases hlo : bad.lon with _ | lo <;> simp [h, hlo]
    · rw [buildAux]
      rcases hla : bad.lat with _ | la <;> simp [h, hla]
  rw [buildIndex, buildIndex, buildAux_append, buildAux_append, Nat.zero_add,
    hskip, ← buildAux_shift t1.length t2 (buildAux emptyGrid 0 t1) t1.length (le_refl _),
    gridMapIdx_id_of_bound t1.length _ hG1]

theorem queryG_mapIdx (f : ℕ → ℕ) (g : Grid) (la lo : ℚ) :
    queryG (gridMapIdx f g) la lo = (queryG g la lo).map (reEntry f) := by
  rw [queryG, queryG]
  induction neighborhood la lo with
  | nil => rfl
  | cons k ks ih => simp [List.flatMap_cons, ih, gridMapIdx]

theorem selGo_mapIdx (dist : Dist) (la lo : ℚ) (f : ℕ → ℕ) :
    ∀ (cs : List Entry) (bi : ℕ) (bd : ℚ),
      selGo dist la lo (f bi) bd (cs.map (reEntry f)) =
        (f (selGo dist la lo bi bd cs).1, (selGo dist la lo bi bd cs).2) := by
  intro cs
  induction cs with
  | nil => intro bi bd; rfl
  | cons c cs ih =>
    intro bi bd
    by_cases h : dist la lo c.lat c.lon < bd <;>
      simp only [List.map_cons, selGo, reEntry, if_pos, if_neg, h, ite_true, ite_false] <;>
      exact ih _ _

theorem selectBest_mapIdx (dist : Dist) (la lo : ℚ) (f : ℕ → ℕ) (cs : List Entry) :
    selectBest dist la lo (cs.map (reEntry f)) =
      (selectBest dist la lo cs).map (fun p => (f p.1, p.2)) := by
  rcases cs with _ | ⟨c, cs⟩
  · rfl
  · show some (selGo dist la lo (f c.idx) (dist la lo c.lat c.lon) (cs.map (reEntry f))) =
      Option.map (fun p => (f p.1, p.2))
        (some (selGo dist la lo c.idx (dist la lo c.lat c.lon) cs))
    rw [selGo_mapIdx dist la lo f cs c.idx (dist la lo c.lat c.lon)]
    rfl

theorem getD_shiftFrom (t1 t2 : List TrackRow) (bad d : TrackRow) (i : ℕ) :
    (t1 ++ bad :: t2).getD (shiftFrom t1.length i) d = (t1 ++ t2).getD i d := by
  by_cases h : i < t1.length
  · rw [shiftFrom, if_pos h, List.getD_append _ _ _ _ h, List.getD_append _ _ _ _ h]
  · rw [shiftFrom, if_neg h]
    rw [List.getD_append_right _ _ _ _ (by omega), List.getD_append_right _ _ _ _ (by omega)]
    have : i + 1 - t1.length = (i - t1.length) + 1 := by omega
    rw [this, List.getD_cons_succ]

theorem matchOnePost_drop_bad (dist : Dist) (t1 t2 : List TrackRow) (bad : TrackRow)
    (hbad : bad.lat = none ∨ bad.lon = none) (maxD : ℚ) (a : AssetRow) :
    matchOnePost dist (t1 ++ bad :: t2) (buildIndex (t1 ++ bad :: t2)) maxD a =
      matchOnePost dist (t1 ++ t2) (buildIndex (t1 ++ t2)) maxD a := by
  unfold matchOnePost
  rcases a with ⟨n, la, lo⟩
  rcases la with _ | la <;> rcases lo with _ | lo <;> simp only []
  rw [buildIndex_drop_bad t1 t2 bad hbad, queryG_mapIdx, selectBest_mapIdx]
  rcases h : selectBest dist la lo (queryG (buildIndex (t1 ++ t2)) la lo) with _ | ⟨bi, bd⟩
  · simp [h]
  · simp only [h]
    by_cases hle : bd ≤ maxD
    · have hg := getD_shiftFrom t1 t2 bad defaultTrackRow bi
      rw [List.getD_eq_getElem?_getD, List.getD_eq_getElem?_getD] at hg
      simp only [hle]
      simp [hle, hg]
    · simp [hle]

theorem matchOneLib_drop_bad (dist : Dist) (t1 t2 : List TrackRow) (bad : TrackRow)
    (hbad : bad.lat = none ∨ bad.lon = none) (maxD : ℚ) (ty : AssetType) (a : AssetRow) :
    matchOneLib dist (t1 ++ bad :: t2) (buildIndex (t1 ++ bad :: t2)) maxD ty a =
      matchOneLib dist (t1 ++ t2) (buildIndex (t1 ++ t2)) maxD ty a := by
  unfold matchOneLib
  rcases a with ⟨n, la, lo⟩
  rcases la with _ | la <;> rcases lo with _ | lo <;> simp only []
  rw [buildIndex_drop_bad t1 t2 bad hbad, queryG_mapIdx, selectBest_mapIdx]
  rcases h : selectBest dist la lo (queryG (buildIndex (t1 ++ t2)) la lo) with _ | ⟨bi, bd⟩
  · simp [h]
  · simp only [h]
    by_cases hle : bd ≤ maxD
    · have hg := getD_shiftFrom t1 t2 bad defaultTrackRow bi
      rw [List.getD_eq_getElem?_getD, List.getD_eq_getElem?_getD] at hg
      simp only [hle]
      simp [hle, hg]
    · simp [hle]

theorem postProcess_results (dist : Dist) (track : List TrackRow)
    (assets : List AssetRow) (maxD : ℚ) :
    (postProcess dist track assets maxD).2 =
      assets.filterMap (matchOnePost dist track (buildIndex track) maxD) := by
  rw [postProcess_as_state]
  simp [postOutput, combinePost, postInit]

theorem postProcess_total (dist : Dist) (track : List TrackRow)
    (assets : List AssetRow) (maxD : ℚ) :
    (postProcess dist track assets maxD).1.total_ohe_structures =
      (postProcess dist track assets maxD).2.length := by
  rw [postProcess_as_state]
  simp [postOutput, combinePost, postInit]

theorem postProcess_matched (dist : Dist) (track : List TrackRow)
    (assets : List AssetRow) (maxD : ℚ) :
    (postProcess dist track assets maxD).1.matched_structures =
      (postProcess dist track assets maxD).2.countP (·.matched) := by
  rw [postProcess_as_state]
  simp [postOutput, combinePost, postInit]

theorem postProcess_avg (dist : Dist) (track : List TrackRow)
    (assets : List AssetRow) (maxD : ℚ) :
    (postProcess dist track assets maxD).1.avg_speed =
      (if 0 < (speedsOf (postProcess dist track assets maxD).2).length then
        (speedsOf (postProcess dist track assets maxD).2).sum /
          (speedsOf (postProcess dist track assets maxD).2).length
      else 0) := by
  rw [postProcess_as_state]
  simp [postOutput, combinePost, postInit]

theorem postProcess_max (dist : Dist) (track : List TrackRow)
    (assets : List AssetRow) (maxD : ℚ) :
    (postProcess dist track assets maxD).1.max_speed =
      (speedsOf (postProcess dist track assets maxD).2).foldl max 0 := by
  rw [postProcess_as_state]
  simp only [postOutput, combinePost, postInit, List.nil_append]
  rcases eq_or_ne ((speedsOf (assets.filterMap
      (matchOnePost dist track (buildIndex track) maxD))).foldl max 0) 0 with h | h
  · rw [if_pos h, h]
  · rw [if_neg h]

theorem postProcess_min (dist : Dist) (track : List TrackRow)
    (assets : List AssetRow) (maxD : ℚ) :
    (postProcess dist track assets maxD).1.min_speed =
      (match (speedsOf (postProcess dist track assets maxD).2).foldl minFold none with
        | none => 0
        | some m => m) := by
  rw [postProcess_as_state]
  simp [postOutput, combinePost, postInit]

theorem postProcess_match_rate (dist : Dist) (track : List TrackRow)
    (assets : List AssetRow) (maxD : ℚ) :
    (postProcess dist track assets maxD).1.match_rate =
      (if 0 < (postProcess dist track assets maxD).2.length then
        (((postProcess dist track assets maxD).2.countP (·.matched) : ℚ) /
          (postProcess dist track assets maxD).2.length) * 100
      else 0) := by
  rw [postProcess_as_state]
  simp [postOutput, combinePost, postInit]

theorem foldl_max_init_le : ∀ (l : List ℚ) (a : ℚ), a ≤ l.foldl max a := by
  intro l
  induction l with
  | nil => intro a; exact le_refl a
  | cons s l ih =>
    intro a
    exact (le_max_left a s).trans (ih (max a s))

theorem foldl_max_le_mem : ∀ (l : List ℚ) (a s : ℚ), s ∈ l → s ≤ l.foldl max a := by
  intro l
  induction l with
  | nil => intro a s h; exact absurd h (List.not_mem_nil s)
  | cons x l ih =>
    intro a s h
    rcases List.mem_cons.mp h with rfl | h
    · exact (le_max_right a s).trans (foldl_max_init_le l (max a s))
    · exact ih (max a x) s h

theorem foldl_max_all_neg : ∀ (l : List ℚ), (∀ s ∈ l, s < 0) → l.foldl max 0 = 0 := by
  intro l
  induction l with
  | nil => intro _; rfl
  | cons s l ih =>
    intro h
    have hs : s < 0 := h s (List.mem_cons_self s l)
    have : max (0:ℚ) s = 0 := max_eq_left hs.le
    simp only [List.foldl_cons, this]
    exact ih fun x hx => h x (List.mem_cons_of_mem s hx)

theorem foldl_minFold_some :
    ∀ (l : List ℚ) (m0 : ℚ), ∃ m, l.foldl minFold (some m0) = some m ∧
      (m = m0 ∨ m ∈ l) ∧ m ≤ m0 ∧ ∀ s ∈ l, m ≤ s := by
  intro l
  induction l with
  | nil => intro m0; exact ⟨m0, rfl, Or.inl rfl, le_refl m0, by simp⟩
  | cons x l ih =>
    intro m0
    rcases ih (min m0 x) with ⟨m, hm, hmem, hle, hall⟩
    refine ⟨m, ?_, ?_, ?_, ?_⟩
    · simpa [minFold] using hm
    · rcases hmem with rfl | hmem
      · rcases le_total m0 x with hc | hc
        · exact Or.inl (min_eq_left hc)
        · right
          rw [min_eq_right hc]
          exact List.mem_cons_self x l
      · exact Or.inr (List.mem_cons_of_mem x hmem)
    · exact hle.trans (min_le_left m0 x)
    · intro s hs
      rcases List.mem_cons.mp hs with rfl | hs
      · exact hle.trans (min_le_right m0 s)
      · exact hall s hs

theorem foldl_minFold_nonempty (x : ℚ) (l : List ℚ) :
    ∃ m, (x :: l).foldl minFold none = some m ∧ m ∈ x :: l ∧ ∀ s ∈ x :: l, m ≤ s := by
  rcases foldl_minFold_some l x with ⟨m, hm, hmem, hle, hall⟩
  refine ⟨m, by simpa [minFold] using hm, ?_, ?_⟩
  · rcases hmem with rfl | hmem
    · exact List.mem_cons_self m l
    · exact List.mem_cons_of_mem x hmem
  · intro s hs
    rcases List.mem_cons.mp hs with rfl | hs
    · exact hle
    · exact hall s hs

theorem atan2_nonneg {y x : ℝ} (hy : 0 ≤ y) (hx : 0 ≤ x) : 0 ≤ atan2 y x := by
  unfold atan2
  split_ifs with h1 h2 h3 h4 h5
  · have hq : (0:ℝ) ≤ y / x := div_nonneg hy hx
    have := Real.arctan_strictMono.monotone hq
    simpa [Real.arctan_zero] using this
  · exact absurd h2.1 (not_lt.mpr hx)
  · exact absurd h3 (not_lt.mpr hx)
  · exact div_nonneg Real.pi_pos.le (by norm_num)
  · exact absurd h5 (not_lt.mpr hy)
  · exact le_refl 0

theorem havA_self (lat lon : ℝ) : havA lat lon lat lon = 0 := by
  unfold havA
  simp

theorem haversineMeters_self (lat lon : ℝ) : haversineMeters lat lon lat lon = 0 := by
  unfold haversineMeters
  rw [havA_self]
  simp [atan2, Real.arctan_zero]

theorem havA_symm (lat1 lon1 lat2 lon2 : ℝ) :
    havA lat1 lon1 lat2 lon2 = havA lat2 lon2 lat1 lon1 := by
  unfold havA
  rw [show (lat1 - lat2) * Real.pi / 180 / 2 = -((lat2 - lat1) * Real.pi / 180 / 2) by ring,
    show (lon1 - lon2) * Real.pi / 180 / 2 = -((lon2 - lon1) * Real.pi / 180 / 2) by ring,
    Real.sin_neg, Real.sin_neg]
  ring

theorem haversineMeters_symm (lat1 lon1 lat2 lon2 : ℝ) :
    haversineMeters lat1 lon1 lat2 lon2 = haversineMeters lat2 lon2 lat1 lon1 := by
  unfold haversineMeters
  rw [havA_symm]

theorem haversineMeters_nonneg (lat1 lon1 lat2 lon2 : ℝ) :
    0 ≤ haversineMeters lat1 lon1 lat2 lon2 := by
  unfold haversineMeters
  have h := atan2_nonneg (Real.sqrt_nonneg (havA lat1 lon1 lat2 lon2))
    (Real.sqrt_nonneg (1 - havA lat1 lon1 lat2 lon2))
  have h2 : (0:ℝ) ≤ 2 * atan2 (Real.sqrt (havA lat1 lon1 lat2 lon2))
      (Real.sqrt (1 - havA lat1 lon1 lat2 lon2)) := by linarith
  linarith

theorem matchOnePost_isSome (dist : Dist) (track : List TrackRow) (g : Grid) (maxD : ℚ)
    (a : AssetRow) :
    (matchOnePost dist track g maxD a).isSome = (a.lat.isSome && a.lon.isSome) := by
  unfold matchOnePost
  rcases a with ⟨n, la, lo⟩
  rcases la with _ | la <;> rcases lo with _ | lo <;> simp only [Option.isSome]
  case some.some =>
    rcases h : selectBest dist la lo (queryG g la lo) with _ | ⟨bi, bd⟩ <;> simp only []
    · rfl
    · by_cases hle : bd ≤ maxD <;> simp [hle]
  all_goals rfl

theorem matchOnePost_bad (dist : Dist) (track : List TrackRow) (g : Grid) (maxD : ℚ)
    (a : AssetRow) (h : a.lat = none ∨ a.lon = none) :
    matchOnePost dist track g maxD a = none := by
  unfold matchOnePost
  rcases a with ⟨n, la, lo⟩
  rcases h with h | h <;> simp only [] at h <;> subst h
  · rfl
  · rcases la with _ | la <;> rfl

theorem matchOneLib_bad (dist : Dist) (track : List TrackRow) (g : Grid) (maxD : ℚ)
    (ty : AssetType) (a : AssetRow) (h : a.lat = none ∨ a.lon = none) :
    matchOneLib dist track g maxD ty a = none := by
  unfold matchOneLib
  rcases a with ⟨n, la, lo⟩
  rcases h with h | h <;> simp only [] at h <;> subst h
  · rfl
  · rcases la with _ | la <;> rfl

theorem matchOneLib_matched (dist : Dist) (track : List TrackRow) (g : Grid) (maxD : ℚ)
    (ty : AssetType) (a : AssetRow) (r : LibResult)
    (h : matchOneLib dist track g maxD ty a = some r) (hm : r.matched = true) :
    ∃ bd : ℚ, bd ≤ maxD ∧ r.distance_m = some (jsRound bd) := by
  unfold matchOneLib at h
  rcases a with ⟨n, la, lo⟩
  rcases la with _ | la <;> rcases lo with _ | lo <;> simp only [] at h
  case some.some =>
    rcases hsel : selectBest dist la lo (queryG g la lo) with _ | ⟨bi, bd⟩ <;>
      rw [hsel] at h
    · simp only [Option.some.injEq] at h
      rw [← h] at hm
      exact absurd hm (by simp)
    · simp only [] at h
      by_cases hle : bd ≤ maxD
      · rw [if_pos hle] at h
        simp only [Option.some.injEq] at h
        exact ⟨bd, hle, by rw [← h]⟩
      · rw [if_neg hle] at h
        simp only [Option.some.injEq] at h
        rw [← h] at hm
        exact absurd hm (by simp)
  all_goals exact Option.noConfusion h

theorem matchOnePost_matched_mono (dist : Dist) (track : List TrackRow) (g : Grid)
    {maxD1 maxD2 : ℚ} (h12 : maxD1 ≤ maxD2) (a : AssetRow) (r1 r2 : PostResult)
    (h1 : matchOnePost dist track g maxD1 a = some r1)
    (h2 : matchOnePost dist track g maxD2 a = some r2) :
    r1.matched = true → r2.matched = true := by
  unfold matchOnePost at h1 h2
  rcases a with ⟨n, la, lo⟩
  rcases la with _ | la <;> rcases lo with _ | lo <;> simp only [] at h1 h2
  case some.some =>
    rcases hsel : selectBest dist la lo (queryG g la lo) with _ | ⟨bi, bd⟩ <;>
      rw [hsel] at h1 h2
    · simp only [Option.some.injEq] at h1
      intro hm
      rw [← h1] at hm
      exact absurd hm (by simp)
    · simp only [] at h1 h2
      by_cases hle1 : bd ≤ maxD1
      · have hle2 : bd ≤ maxD2 := hle1.trans h12
        rw [if_pos hle1] at h1
        rw [if_pos hle2] at h2
        simp only [Option.some.injEq] at h2
        intro _
        rw [← h2]
      · rw [if_neg hle1] at h1
        simp only [Option.some.injEq] at h1
        intro hm
        rw [← h1] at hm
        exact absurd hm (by simp)
  all_goals exact Option.noConfusion h1

theorem length_filterMap_eq_countP {α β : Type} (f : α → Option β) :
    ∀ l : List α, (l.filterMap f).length = l.countP (fun a => (f a).isSome) := by
  intro l
  induction l with
  | nil => rfl
  | cons a l ih =>
    rcases h : f a with _ | b <;>
      simp [List.filterMap_cons, List.countP_cons, h, ih]

theorem filterMap_forall₂ {α β : Type} (f g : α → Option β) (R : β → β → Prop)
    (hsome : ∀ a, (f a).isSome = (g a).isSome)
    (hR : ∀ a b1 b2, f a = some b1 → g a = some b2 → R b1 b2) :
    ∀ l : List α, List.Forall₂ R (l.filterMap f) (l.filterMap g) := by
  intro l
  induction l with
  | nil => exact List.Forall₂.nil
  | cons a l ih =>
    rcases hf : f a with _ | b1 <;> rcases hg : g a with _ | b2
    · simpa [List.filterMap_cons, hf, hg] using ih
    · have := hsome a
      rw [hf, hg] at this
      exact absurd this (by simp)
    · have := hsome a
      rw [hf, hg] at this
      exact absurd this (by simp)
    · simpa [List.filterMap_cons, hf, hg] using List.Forall₂.cons (hR a b1 b2 hf hg) ih

theorem countP_le_of_forall₂ {α β : Type} (p : α → Bool) (q : β → Bool) :
    ∀ {l1 : List α} {l2 : List β},
      List.Forall₂ (fun r1 r2 => p r1 = true → q r2 = true) l1 l2 →
      l1.countP p ≤ l2.countP q := by
  intro l1 l2 h
  induction h with
  | nil => exact le_refl 0
  | cons hab hl ih =>
    simp only [List.countP_cons]
    rcases hp : p _ with _ | _
    · simp only [Bool.false_eq_true, if_false]
      omega
    · rw [hab hp]
      simp only [if_true]
      omega

theorem countP_matched_split (rs : List LibResult) :
    rs.countP (·.matched) = rs.countP isMatchedOhe + rs.countP isMatchedSig := by
  induction rs with
  | nil => rfl
  | cons r rs ih =>
    simp only [List.countP_cons, ih]
    rcases hm : r.matched with _ | _ <;> rcases ht : r.asset_type with _ | _ <;>
      simp [isMatchedOhe, isMatchedSig, hm, ht] <;> omega

theorem analyzeData_total (dist : Dist) (track : List TrackRow)
    (ohe sig : List AssetRow) (maxD : ℚ) :
    (analyzeData dist track ohe sig maxD).1.total_assets =
      (analyzeData dist track ohe sig maxD).2.length := by
  rw [analyzeData_as_state]
  simp [libOutput, combineLib, libInit]

theorem analyzeData_matched_ohe (dist : Dist) (track : List TrackRow)
    (ohe sig : List AssetRow) (maxD : ℚ) :
    (analyzeData dist track ohe sig maxD).1.matched_ohe =
      (analyzeData dist track ohe sig maxD).2.countP isMatchedOhe := by
  rw [analyzeData_as_state]
  simp [libOutput, combineLib, libInit]

theorem analyzeData_matched_signals (dist : Dist) (track : List TrackRow)
    (ohe sig : List AssetRow) (maxD : ℚ) :
    (analyzeData dist track ohe sig maxD).1.matched_signals =
      (analyzeData dist track ohe sig maxD).2.countP isMatchedSig := by
  rw [analyzeData_as_state]
  simp [libOutput, combineLib, libInit]

theorem analyzeData_max (dist : Dist) (track : List TrackRow)
    (ohe sig : List AssetRow) (maxD : ℚ) :
    (analyzeData dist track ohe sig maxD).1.max_speed =
      (speedsOfLib (analyzeData dist track ohe sig maxD).2).foldl max 0 := by
  rw [analyzeData_as_state]
  simp [libOutput, combineLib, libInit]

theorem POSTroute_ok (dist : Dist) (rtis ohe : String) (maxRaw : Option String)
    (rla rlo ola olo : String)
    (h1 : findColumn (parseCSV rtis) ["Latitude", "latitude", "lat"] = some rla)
    (h2 : findColumn (parseCSV rtis) ["Longitude", "longitude", "lon"] = some rlo)
    (h3 : findColumn (parseCSV ohe) ["Latitude", "latitude", "lat"] = some ola)
    (h4 : findColumn (parseCSV ohe) ["Longitude", "longitude", "lon"] = some olo) :
    POSTroute dist rtis ohe maxRaw =
      Except.ok (postProcess dist
        (mkTrackRows (parseCSV rtis) rla rlo
          (findColumn (parseCSV rtis) ["Logging Time", "LoggingTime", "timestamp"])
          (findColumn (parseCSV rtis) ["Speed", "speed", "speed_kmph"]))
        (mkAssetRows (parseCSV ohe) ola olo
          ((findColumn (parseCSV ohe) ["OHEMas", "OHE", "pole", "pole_label"]).getD "OHEMas"))
        (match jsParseFloat maxRaw with
          | none => 50
          | some q => if q = 0 then 50 else q)) := by
  unfold POSTroute
  rw [h1, h2, h3, h4]

theorem POSTroute_err (dist : Dist) (rtis ohe : String) (maxRaw : Option String)
    (h : findColumn (parseCSV rtis) ["Latitude", "latitude", "lat"] = none ∨
      findColumn (parseCSV rtis) ["Longitude", "longitude", "lon"] = none ∨
      findColumn (parseCSV ohe) ["Latitude", "latitude", "lat"] = none ∨
      findColumn (parseCSV ohe) ["Longitude", "longitude", "lon"] = none) :
    POSTroute dist rtis ohe maxRaw =
      Except.error "Required latitude/longitude columns not found" := by
  unfold POSTroute
  rcases hc1 : findColumn (parseCSV rtis) ["Latitude", "latitude", "lat"] with _ | rla <;>
    rcases hc2 : findColumn (parseCSV rtis) ["Longitude", "longitude", "lon"] with _ | rlo <;>
    rcases hc3 : findColumn (parseCSV ohe) ["Latitude", "latitude", "lat"] with _ | ola <;>
    rcases hc4 : findColumn (parseCSV ohe) ["Longitude", "longitude", "lon"] with _ | olo <;>
    first
    | rfl
    | (exfalso
       rcases h with h | h | h | h <;>
         first
         | exact Option.noConfusion (hc1.symm.trans h)
         | exact Option.noConfusion (hc2.symm.trans h)
         | exact Option.noConfusion (hc3.symm.trans h)
         | exact Option.noConfusion (hc4.symm.trans h))

theorem matchOnePost_neg_unmatched (dist : Dist) (track : List TrackRow) (g : Grid)
    (maxD : ℚ) (hq : maxD < 0) (hnn : ∀ x y z w, 0 ≤ dist x y z w)
    (a : AssetRow) (r : PostResult)
    (h : matchOnePost dist track g maxD a = some r) : r.matched = false := by
  unfold matchOnePost at h
  rcases a with ⟨n, la, lo⟩
  rcases la with _ | la <;> rcases lo with _ | lo <;> simp only [] at h
  case some.some =>
    rcases hsel : selectBest dist la lo (queryG g la lo) with _ | ⟨bi, bd⟩ <;>
      rw [hsel] at h
    · simp only [Option.some.injEq] at h
      rw [← h]
    · rcases selectBest_spec dist la lo _ _ hsel with ⟨j, hj, _, hdist, _, _⟩
      have hbd : 0 ≤ bd := by
        have hge := hnn la lo ((queryG g la lo).get ⟨j, hj⟩).lat
          ((queryG g la lo).get ⟨j, hj⟩).lon
        rw [hdist] at hge
        exact hge
      have hnle : ¬(bd ≤ maxD) := fun hle => absurd (hle.trans_lt hq) (not_lt.mpr hbd)
      have h2 : (if bd ≤ maxD then
          (some ⟨n, la, lo, (track.getD bi defaultTrackRow).time,
            (track.getD bi defaultTrackRow).speed, true⟩ : Option PostResult)
        else some ⟨n, la, lo, "", none, false⟩) = some r := h
      rw [if_neg hnle] at h2
      simp only [Option.some.injEq] at h2
      rw [← h2]
  all_goals exact Option.noConfusion h

/-- C1 (as amended): the matcher emits exactly one result per input asset
whose coordinates parse to numbers, in input order — the result list is the
in-order `filterMap` of the per-asset outcome over the asset list, its
length is the number of assets with parsable coordinates, and an asset with
an unparsable coordinate contributes no result at all (rather than an
explicitly unmatched one). -/
theorem claim_C1 (dist : Dist) (track : List TrackRow) (assets : List AssetRow) (maxD : ℚ) :
    (postProcess dist track assets maxD).2 =
      assets.filterMap (matchOnePost dist track (buildIndex track) maxD) ∧
    (postProcess dist track assets maxD).2.length =
      assets.countP (fun a => a.lat.isSome && a.lon.isSome) ∧
    ∀ a ∈ assets, (a.lat = none ∨ a.lon = none) →
      matchOnePost dist track (buildIndex track) maxD a = none := by
  refine ⟨postProcess_results dist track assets maxD, ?_,
    fun a _ ha => matchOnePost_bad dist track (buildIndex track) maxD a ha⟩
  rw [postProcess_results, length_filterMap_eq_countP]
  exact List.countP_congr fun a _ => by
    rw [matchOnePost_isSome dist track (buildIndex track) maxD a]

/-- C1 counterexample: an asset whose latitude does not parse yields no
result record, so `len(results) = 0 ≠ 1 = len(assets)`. -/
theorem claim_C1_cex :
    (postProcess (constDist 0) [] [⟨"A", none, some 0⟩] 50).2.length ≠
      ([⟨"A", none, some 0⟩] : List AssetRow).length := by
  rw [postProcess_results]
  simp [matchOnePost]

/-- C2 (as amended): the per-kind matched counters sum to the number of
matched results (and each counter counts exactly its kind's matched
results), and every matched result carries
`distance_m = round(bestDist)` for a best distance `bestDist ≤
max_distance_m`; hence `distance_m ≤ round(max_distance_m)` — but the
rounded value itself may exceed a fractional `max_distance_m` by up to one
half. -/
theorem claim_C2 (dist : Dist) (track : List TrackRow) (ohe sig : List AssetRow) (maxD : ℚ) :
    (analyzeData dist track ohe sig maxD).1.matched_ohe +
        (analyzeData dist track ohe sig maxD).1.matched_signals =
      (analyzeData dist track ohe sig maxD).2.countP (·.matched) ∧
    (analyzeData dist track ohe sig maxD).1.matched_ohe =
      (analyzeData dist track ohe sig maxD).2.countP isMatchedOhe ∧
    (analyzeData dist track ohe sig maxD).1.matched_signals =
      (analyzeData dist track ohe sig maxD).2.countP isMatchedSig ∧
    ∀ r ∈ (analyzeData dist track ohe sig maxD).2, r.matched = true →
      ∃ d : ℚ, d ≤ maxD ∧ r.distance_m = some (jsRound d) ∧ jsRound d ≤ jsRound maxD := by
  refine ⟨?_, analyzeData_matched_ohe dist track ohe sig maxD,
    analyzeData_matched_signals dist track ohe sig maxD, ?_⟩
  · rw [analyzeData_matched_ohe, analyzeData_matched_signals, countP_matched_split]
  · intro r hr hm
    rw [analyzeData_results] at hr
    unfold libResults at hr
    rcases List.mem_append.mp hr with hr | hr <;>
      rcases List.mem_filterMap.mp hr with ⟨a, _, heq⟩ <;>
      rcases matchOneLib_matched dist track (buildIndex track) maxD _ a r heq hm with
        ⟨bd, hble, hdm⟩ <;>
      exact ⟨bd, hble, hdm, jsRound_mono hble⟩

/-- C3: the spatial index stores each inserted fix under the cell key
`(floor(lat/cellSize), floor(lon/cellSize))` (buckets in insertion order),
and a query returns exactly the concatenation of the 9 buckets of the 3×3
neighborhood of the query point's cell — up to order, exactly the inserted
fixes whose cell differs from the query cell by at most one in each
coordinate — with empty cells contributing nothing. -/
theorem claim_C3 (rows : List TrackRow) (la lo : ℚ) (key : ℤ × ℤ) :
    buildIndex rows key =
      (validEntries rows).filter (fun e => cellKey e.lat e.lon = key) ∧
    queryG (buildIndex rows) la lo =
      (neighborhood la lo).flatMap
        (fun k => (validEntries rows).filter (fun e => cellKey e.lat e.lon = k)) ∧
    (queryG (buildIndex rows) la lo).Perm
      ((validEntries rows).filter fun e => decide (cellKey e.lat e.lon ∈ neighborhood la lo)) ∧
    (∀ k : ℤ × ℤ, k ∈ neighborhood la lo ↔
      |k.1 - jsFloor (la / gridDeg)| ≤ 1 ∧ |k.2 - jsFloor (lo / gridDeg)| ≤ 1) := by
  refine ⟨?_, ?_, queryG_perm rows la lo, mem_neighborhood la lo⟩
  · rw [buildIndex_bucket]
  · rw [queryG, buildIndex_bucket]

/-- C4: decreasing the threshold never creates a match: with the same
distance function, track and assets, every asset matched under the smaller
threshold is matched under the larger one (results are compared pointwise
in input order), and the matched count is monotone. -/
theorem claim_C4 (dist : Dist) (track : List TrackRow) (assets : List AssetRow)
    {maxD1 maxD2 : ℚ} (h : maxD1 ≤ maxD2) :
    List.Forall₂ (fun r1 r2 => r1.matched = true → r2.matched = true)
      (postProcess dist track assets maxD1).2 (postProcess dist track assets maxD2).2 ∧
    (postProcess dist track assets maxD1).1.matched_structures ≤
      (postProcess dist track assets maxD2).1.matched_structures := by
  have hf := filterMap_forall₂ (matchOnePost dist track (buildIndex track) maxD1)
    (matchOnePost dist track (buildIndex track) maxD2)
    (fun r1 r2 => r1.matched = true → r2.matched = true)
    (fun a => by rw [matchOnePost_isSome, matchOnePost_isSome])
    (fun a b1 b2 h1 h2 => matchOnePost_matched_mono dist track (buildIndex track) h a b1 b2 h1 h2)
    assets
  constructor
  · rw [postProcess_results, postProcess_results]
    exact hf
  · rw [postProcess_matched, postProcess_matched, postProcess_results, postProcess_results]
    exact countP_le_of_forall₂ _ _ hf

/-- C5: among the candidates the index returns, the matcher selects the
minimum-distance candidate and on ties the first candidate in enumeration
order (every earlier candidate is strictly farther); and the pipeline is a
pure function of its inputs, so identical inputs give identical results and
summary. -/
theorem claim_C5 (dist : Dist) (track : List TrackRow) (la lo : ℚ) (p : ℕ × ℚ)
    (h : selectBest dist la lo (queryG (buildIndex track) la lo) = some p) :
    (∃ j, ∃ hj : j < (queryG (buildIndex track) la lo).length,
      ((queryG (buildIndex track) la lo).get ⟨j, hj⟩).idx = p.1 ∧
      dist la lo ((queryG (buildIndex track) la lo).get ⟨j, hj⟩).lat
        ((queryG (buildIndex track) la lo).get ⟨j, hj⟩).lon = p.2 ∧
      (∀ m, ∀ hm : m < (queryG (buildIndex track) la lo).length,
        p.2 ≤ dist la lo ((queryG (buildIndex track) la lo).get ⟨m, hm⟩).lat
          ((queryG (buildIndex track) la lo).get ⟨m, hm⟩).lon) ∧
      (∀ m, ∀ hm : m < (queryG (buildIndex track) la lo).length, m < j →
        p.2 < dist la lo ((queryG (buildIndex track) la lo).get ⟨m, hm⟩).lat
          ((queryG (buildIndex track) la lo).get ⟨m, hm⟩).lon)) ∧
    (∀ (assets : List AssetRow) (maxD : ℚ),
      postProcess dist track assets maxD = postProcess dist track assets maxD) :=
  ⟨selectBest_spec dist la lo _ p h, fun _ _ => rfl⟩

/-- C7: a row with unparsable coordinates never aborts the run and leaves
every other row's processing unchanged: removing a coordinate-less track
row from anywhere in the track list leaves `analyzeData`'s entire output
(summary and results) unchanged, and likewise removing a coordinate-less
asset row; the bad asset row contributes no result. -/
theorem claim_C7 (dist : Dist) (t1 t2 : List TrackRow) (badT : TrackRow)
    (track : List TrackRow) (o1 o2 : List AssetRow) (badA : AssetRow)
    (ohe sig : List AssetRow) (maxD : ℚ)
    (hT : badT.lat = none ∨ badT.lon = none)
    (hA : badA.lat = none ∨ badA.lon = none) :
    analyzeData dist (t1 ++ badT :: t2) ohe sig maxD =
      analyzeData dist (t1 ++ t2) ohe sig maxD ∧
    analyzeData dist track (o1 ++ badA :: o2) sig maxD =
      analyzeData dist track (o1 ++ o2) sig maxD := by
  constructor
  · rw [analyzeData_as_state, analyzeData_as_state]
    have hfun : ∀ ty, matchOneLib dist (t1 ++ badT :: t2)
        (buildIndex (t1 ++ badT :: t2)) maxD ty =
        matchOneLib dist (t1 ++ t2) (buildIndex (t1 ++ t2)) maxD ty :=
      fun ty => funext fun a => matchOneLib_drop_bad dist t1 t2 badT hT maxD ty a
    unfold libResults
    rw [hfun AssetType.OHE, hfun AssetType.Signal]
  · rw [analyzeData_as_state, analyzeData_as_state]
    unfold libResults
    rw [List.filterMap_append, List.filterMap_append, List.filterMap_cons,
      matchOneLib_bad dist track (buildIndex track) maxD AssetType.OHE badA hA]

/-- C8: the summary speed statistics are computed over exactly the matched
results with a numeric speed: `avg_speed` is their mean (0 when there are
none), `max_speed` bounds them all, `min_speed` is their true minimum when
any exist; when none exist all three are exactly 0 (the `Infinity` seed is
normalised away), and `match_rate` is 0 (not NaN) when there are no
results. -/
theorem claim_C8 (dist : Dist) (track : List TrackRow) (assets : List AssetRow) (maxD : ℚ) :
    ((postProcess dist track assets maxD).1.avg_speed =
      if 0 < (speedsOf (postProcess dist track assets maxD).2).length then
        (speedsOf (postProcess dist track assets maxD).2).sum /
          ((speedsOf (postProcess dist track assets maxD).2).length : ℚ)
      else 0) ∧
    (speedsOf (postProcess dist track assets maxD).2 = [] →
      (postProcess dist track assets maxD).1.avg_speed = 0 ∧
      (postProcess dist track assets maxD).1.max_speed = 0 ∧
      (postProcess dist track assets maxD).1.min_speed = 0) ∧
    (∀ s ∈ speedsOf (postProcess dist track assets maxD).2,
      s ≤ (postProcess dist track assets maxD).1.max_speed) ∧
    (speedsOf (postProcess dist track assets maxD).2 ≠ [] →
      ∃ m, (postProcess dist track assets maxD).1.min_speed = m ∧
        m ∈ speedsOf (postProcess dist track assets maxD).2 ∧
        ∀ s ∈ speedsOf (postProcess dist track assets maxD).2, m ≤ s) ∧
    ((postProcess dist track assets maxD).2 = [] →
      (postProcess dist track assets maxD).1.match_rate = 0) := by
  refine ⟨postProcess_avg dist track assets maxD, ?_, ?_, ?_, ?_⟩
  · intro hms
    refine ⟨?_, ?_, ?_⟩
    · rw [postProcess_avg, hms]
      simp
    · rw [postProcess_max, hms]
      rfl
    · rw [postProcess_min, hms]
      rfl
  · intro s hs
    rw [postProcess_max]
    exact foldl_max_le_mem _ 0 s hs
  · intro hms
    rcases hcons : speedsOf (postProcess dist track assets maxD).2 with _ | ⟨x, l⟩
    · exact absurd hcons hms
    · rcases foldl_minFold_nonempty x l with ⟨m, hm, hmem, hall⟩
      refine ⟨m, ?_, hmem, hall⟩
      rw [postProcess_min, hcons, hm]
  · intro hempty
    rw [postProcess_match_rate, hempty]
    simp

/-- C9: the distance function is the haversine formula with Earth radius
6371000 m over degree inputs: symmetric, exactly 0 on coincident points,
and non-negative (hence finite) for all real inputs. -/
theorem claim_C9 (lat1 lon1 lat2 lon2 : ℝ) :
    haversineMeters lat1 lon1 lat2 lon2 = haversineMeters lat2 lon2 lat1 lon1 ∧
    haversineMeters lat1 lon1 lat1 lon1 = 0 ∧
    0 ≤ haversineMeters lat1 lon1 lat2 lon2 :=
  ⟨haversineMeters_symm lat1 lon1 lat2 lon2, haversineMeters_self lat1 lon1,
    haversineMeters_nonneg lat1 lon1 lat2 lon2⟩

/-- C10 (implicit): the summary's `max_speed` is never negative in either
pipeline variant — the accumulator starts at 0 and is only raised by
`Math.max` — and when every matched numeric speed is negative the summary
reports `max_speed = 0` rather than the actual (negative) maximum. -/
theorem claim_C10 (dist : Dist) (track : List TrackRow) (assets : List AssetRow)
    (ohe sig : List AssetRow) (maxD : ℚ) :
    0 ≤ (postProcess dist track assets maxD).1.max_speed ∧
    0 ≤ (analyzeData dist track ohe sig maxD).1.max_speed ∧
    ((∀ s ∈ speedsOf (postProcess dist track assets maxD).2, s < 0) →
      (postProcess dist track assets maxD).1.max_speed = 0) := by
  refine ⟨?_, ?_, ?_⟩
  · rw [postProcess_max]
    exact foldl_max_init_le _ 0
  · rw [analyzeData_max]
    exact foldl_max_init_le _ 0
  · intro hneg
    rw [postProcess_max]
    exact foldl_max_all_neg _ hneg

/-- C6 (as amended): a missing latitude/longitude column — including the
empty-dataset case, which yields no columns at all — is caught before any
index is built and surfaced as the single 400 failure, with no partial
processing; but an invalid threshold is NOT rejected: an unparsable or zero
`max_distance` silently falls back to the default 50, and a negative value
is accepted and produces a normal success response in which (the distance
function being non-negative) no asset can match. -/
theorem claim_C6 (dist : Dist) (rtis ohe : String) (maxRaw : Option String) :
    ((findColumn (parseCSV rtis) ["Latitude", "latitude", "lat"] = none ∨
      findColumn (parseCSV rtis) ["Longitude", "longitude", "lon"] = none ∨
      findColumn (parseCSV ohe) ["Latitude", "latitude", "lat"] = none ∨
      findColumn (parseCSV ohe) ["Longitude", "longitude", "lon"] = none) →
      POSTroute dist rtis ohe maxRaw =
        Except.error "Required latitude/longitude columns not found") ∧
    (parseCSV rtis = [] →
      POSTroute dist rtis ohe maxRaw =
        Except.error "Required latitude/longitude columns not found") ∧
    (∀ q : ℚ, jsParseFloat maxRaw = some q → q ≠ 0 →
      ∀ rla rlo ola olo : String,
        findColumn (parseCSV rtis) ["Latitude", "latitude", "lat"] = some rla →
        findColumn (parseCSV rtis) ["Longitude", "longitude", "lon"] = some rlo →
        findColumn (parseCSV ohe) ["Latitude", "latitude", "lat"] = some ola →
        findColumn (parseCSV ohe) ["Longitude", "longitude", "lon"] = some olo →
        POSTroute dist rtis ohe maxRaw =
          Except.ok (postProcess dist
            (mkTrackRows (parseCSV rtis) rla rlo
              (findColumn (parseCSV rtis) ["Logging Time", "LoggingTime", "timestamp"])
              (findColumn (parseCSV rtis) ["Speed", "speed", "speed_kmph"]))
            (mkAssetRows (parseCSV ohe) ola olo
              ((findColumn (parseCSV ohe) ["OHEMas", "OHE", "pole", "pole_label"]).getD
                "OHEMas"))
            q)) ∧
    (∀ q : ℚ, q < 0 → (∀ x y z w, 0 ≤ dist x y z w) →
      ∀ (track : List TrackRow) (assets : List AssetRow),
        ∀ r ∈ (postProcess dist track assets q).2, r.matched = false) := by
  refine ⟨fun h => POSTroute_err dist rtis ohe maxRaw h, ?_, ?_, ?_⟩
  · intro hempty
    apply POSTroute_err
    left
    rw [hempty]
    rfl
  · intro q hq hq0 rla rlo ola olo h1 h2 h3 h4
    rw [POSTroute_ok dist rtis ohe maxRaw rla rlo ola olo h1 h2 h3 h4, hq]
    rw [show ((match (some q : Option ℚ) with
        | none => 50
        | some q' => if q' = 0 then 50 else q') : ℚ) = if q = 0 then 50 else q from rfl]
    rw [if_neg hq0]
  · intro q hq hnn track assets r hr
    rw [postProcess_results] at hr
    rcases List.mem_filterMap.mp hr with ⟨a, _, ha⟩
    exact matchOnePost_neg_unmatched dist track (buildIndex track) q hq hnn a r ha

/-- C6 witness: a dataset without latitude/longitude columns, and an empty
dataset, are both rejected with the single descriptive failure. -/
theorem claim_C6_witness :
    POSTroute (constDist 0) "x,y\n0,0" "lat,lon\n0,0" none =
      Except.error "Required latitude/longitude columns not found" ∧
    POSTroute (constDist 0) "" "lat,lon\n0,0" none =
      Except.error "Required latitude/longitude columns not found" :=
  ⟨(claim_C6 (constDist 0) "x,y\n0,0" "lat,lon\n0,0" none).1 (Or.inl (by decide)),
   (claim_C6 (constDist 0) "" "lat,lon\n0,0" none).2.1 rfl⟩

theorem parseUnsigned_five : parseUnsigned ['5'] = some 5 := by
  have hd : Char.isDigit '5' = true := rfl
  simp [parseUnsigned, List.takeWhile, List.dropWhile, hd, digitsToNat]

theorem jsParseFloat_neg_five : jsParseFloat (some "-5") = some (-5) := by
  show (parseUnsigned ['5']).map (fun q => -q) = some (-5)
  rw [parseUnsigned_five]
  rfl

/-- C6 counterexample: the claim says a threshold `≤ 0` is caught and
surfaced as a failure; but `max_distance = "-5"` is accepted unchanged and
the route answers with a normal success response. -/
theorem claim_C6_cex :
    POSTroute (constDist 0) "lat,lon\n0,0" "lat,lon\n0,0" (some "-5") =
      Except.ok (postProcess (constDist 0)
        (mkTrackRows (parseCSV "lat,lon\n0,0") "lat" "lon" none none)
        (mkAssetRows (parseCSV "lat,lon\n0,0") "lat" "lon" "OHEMas")
        (-5)) ∧
    (-5 : ℚ) < 0 := by
  refine ⟨?_, by norm_num⟩
  have h1 : findColumn (parseCSV "lat,lon\n0,0") ["Latitude", "latitude", "lat"] =
      some "lat" := by decide
  have h2 : findColumn (parseCSV "lat,lon\n0,0") ["Longitude", "longitude", "lon"] =
      some "lon" := by decide
  rw [POSTroute_ok (constDist 0) _ _ _ "lat" "lon" "lat" "lon" h1 h2 h1 h2,
    jsParseFloat_neg_five]
  rw [show ((match (some (-5 : ℚ) : Option ℚ) with
      | none => 50
      | some q => if q = 0 then 50 else q) : ℚ) = if (-5 : ℚ) = 0 then 50 else (-5) from rfl]
  rw [if_neg (by norm_num : ¬(-5 : ℚ) = 0)]
  rfl

theorem cellKey_zero : cellKey 0 0 = (0, 0) := by
  rw [cellKey, jsFloor_eq]
  norm_num

theorem queryG_origin (rows : List TrackRow) (es : List Entry)
    (hv : validEntries rows = es) (h : ∀ e ∈ es, e.lat = 0 ∧ e.lon = 0) :
    queryG (buildIndex rows) 0 0 = es := by
  have hk : ∀ e ∈ es, cellKey e.lat e.lon = (0, 0) := by
    intro e he
    rcases h e he with ⟨h1, h2⟩
    rw [h1, h2, cellKey_zero]
  have hcenter : ∀ k : ℤ × ℤ, k = (0, 0) →
      es.filter (fun e => cellKey e.lat e.lon = k) = es := by
    intro k hkk
    subst hkk
    apply List.filter_eq_self.mpr
    intro e he
    simp [hk e he]
  have hoff : ∀ k : ℤ × ℤ, k ≠ (0, 0) →
      es.filter (fun e => cellKey e.lat e.lon = k) = [] := by
    intro k hkne
    rw [List.filter_eq_nil_iff]
    intro e he
    simp only [hk e he, decide_eq_true_eq]
    exact fun heq => hkne heq.symm
  rw [queryG, buildIndex_bucket]
  simp only [hv]
  rw [neighborhood_eq_map, cellKey_zero]
  simp only [offsets9, List.map_cons, List.map_nil, List.flatMap_cons, List.flatMap_nil,
    List.append_nil]
  rw [hoff _ (by decide), hoff _ (by decide), hoff _ (by decide), hoff _ (by decide),
    hcenter _ (by decide), hoff _ (by decide), hoff _ (by decide), hoff _ (by decide),
    hoff _ (by decide)]
  simp

theorem jsRound_val : jsRound ((497 : ℚ)/10) = 50 := by
  rw [jsRound_eq]
  norm_num

/-- Evaluation of the rounding scenario: one track fix at the origin, the
distance function constantly `49.7`, threshold `49.9` — the asset matches
and the stored rounded distance is `50`. -/
theorem analyzeData_eval_rounding :
    (analyzeData (constDist (497/10)) [⟨some 0, some 0, "t", some 10⟩]
      [⟨"A", some 0, some 0⟩] [] (499/10)).2 =
      [⟨"A", AssetType.OHE, 0, 0, "t", some 10, true, some 50⟩] := by
  have hq : queryG (buildIndex [⟨some 0, some 0, "t", some 10⟩]) 0 0 = [⟨0, 0, 0⟩] :=
    queryG_origin _ _ rfl (by
      intro e he
      rw [List.mem_singleton] at he
      subst he
      exact ⟨rfl, rfl⟩)
  have hm : matchOneLib (constDist (497/10)) [⟨some 0, some 0, "t", some 10⟩]
      (buildIndex [⟨some 0, some 0, "t", some 10⟩]) (499/10) AssetType.OHE
      ⟨"A", some 0, some 0⟩ =
      some ⟨"A", AssetType.OHE, 0, 0, "t", some 10, true, some 50⟩ := by
    unfold matchOneLib
    rw [show (⟨"A", some 0, some 0⟩ : AssetRow).lat = some 0 from rfl]
    simp only [hq]
    rw [show selectBest (constDist (497/10)) 0 0 [⟨0, 0, 0⟩] =
      some (0, (497 : ℚ)/10) from rfl]
    simp [labelOr, jsRound_val, (by norm_num : (497 : ℚ)/10 ≤ 499/10)]
  rw [analyzeData_results]
  unfold libResults
  simp [List.filterMap_cons, hm]

/-- C2 counterexample: at threshold `49.9` with best distance `49.7` the
asset is matched and yet its recorded `distance_m = 50` exceeds the
threshold. -/
theorem claim_C2_cex :
    (analyzeData (constDist (497/10)) [⟨some 0, some 0, "t", some 10⟩]
      [⟨"A", some 0, some 0⟩] [] (499/10)).2 =
      [⟨"A", AssetType.OHE, 0, 0, "t", some 10, true, some 50⟩] ∧
    ¬ ((50 : ℚ) ≤ 499/10) :=
  ⟨analyzeData_eval_rounding, by norm_num⟩

/-- C2 witness: the amended bound instantiated on the rounding scenario. -/
theorem claim_C2_witness :
    ∃ d : ℚ, d ≤ 499/10 ∧
      (⟨"A", AssetType.OHE, 0, 0, "t", some 10, true, some 50⟩ : LibResult).distance_m =
        some (jsRound d) ∧
      jsRound d ≤ jsRound (499/10) :=
  (claim_C2 (constDist (497/10)) [⟨some 0, some 0, "t", some 10⟩]
    [⟨"A", some 0, some 0⟩] [] (499/10)).2.2.2
    ⟨"A", AssetType.OHE, 0, 0, "t", some 10, true, some 50⟩
    (by rw [analyzeData_eval_rounding]; exact List.mem_singleton.mpr rfl) rfl

/-- C1 witness: the amended count and skip rules instantiated at an asset
with an unparsable latitude. -/
theorem claim_C1_witness :
    (postProcess (constDist 0) [] [⟨"A", none, some 0⟩] 50).2.length =
      ([⟨"A", none, some 0⟩] : List AssetRow).countP
        (fun a => a.lat.isSome && a.lon.isSome) ∧
    matchOnePost (constDist 0) [] (buildIndex []) 50 ⟨"A", none, some 0⟩ = none :=
  ⟨(claim_C1 (constDist 0) [] [⟨"A", none, some 0⟩] 50).2.1,
   (claim_C1 (constDist 0) [] [⟨"A", none, some 0⟩] 50).2.2 _
     (List.mem_singleton.mpr rfl) (Or.inl rfl)⟩

/-- C4 witness: thresholds `1 ≤ 2` on a concrete run. -/
theorem claim_C4_witness :
    (1 : ℚ) ≤ 2 ∧
    (List.Forall₂ (fun r1 r2 => r1.matched = true → r2.matched = true)
      (postProcess (constDist 1) [⟨some 0, some 0, "t", some 10⟩]
        [⟨"A", some 0, some 0⟩] 1).2
      (postProcess (constDist 1) [⟨some 0, some 0, "t", some 10⟩]
        [⟨"A", some 0, some 0⟩] 2).2 ∧
    (postProcess (constDist 1) [⟨some 0, some 0, "t", some 10⟩]
        [⟨"A", some 0, some 0⟩] 1).1.matched_structures ≤
      (postProcess (constDist 1) [⟨some 0, some 0, "t", some 10⟩]
        [⟨"A", some 0, some 0⟩] 2).1.matched_structures) :=
  ⟨by norm_num,
   claim_C4 (constDist 1) [⟨some 0, some 0, "t", some 10⟩]
     [⟨"A", some 0, some 0⟩] (by norm_num)⟩

theorem selectBest_pair (q : ℚ) :
    selectBest (constDist q) 0 0 [⟨0, 0, 0⟩, ⟨1, 0, 0⟩] = some (0, q) := by
  simp [selectBest, selGo, constDist, lt_self_iff_false]

/-- C5 witness: two equidistant fixes; the scan returns the first
(`sequence index 0`), and the characterisation holds at that input. -/
theorem claim_C5_witness :
    (∃ j, ∃ hj : j < (queryG (buildIndex [⟨some 0, some 0, "a", none⟩,
        ⟨some 0, some 0, "b", none⟩]) 0 0).length,
      ((queryG (buildIndex [⟨some 0, some 0, "a", none⟩,
          ⟨some 0, some 0, "b", none⟩]) 0 0).get ⟨j, hj⟩).idx = ((0 : ℕ), (1 : ℚ)).1 ∧
      constDist 1 0 0 ((queryG (buildIndex [⟨some 0, some 0, "a", none⟩,
          ⟨some 0, some 0, "b", none⟩]) 0 0).get ⟨j, hj⟩).lat
        ((queryG (buildIndex [⟨some 0, some 0, "a", none⟩,
          ⟨some 0, some 0, "b", none⟩]) 0 0).get ⟨j, hj⟩).lon = ((0 : ℕ), (1 : ℚ)).2 ∧
      (∀ m, ∀ hm : m < (queryG (buildIndex [⟨some 0, some 0, "a", none⟩,
          ⟨some 0, some 0, "b", none⟩]) 0 0).length,
        ((0 : ℕ), (1 : ℚ)).2 ≤ constDist 1 0 0
          ((queryG (buildIndex [⟨some 0, some 0, "a", none⟩,
            ⟨some 0, some 0, "b", none⟩]) 0 0).get ⟨m, hm⟩).lat
          ((queryG (buildIndex [⟨some 0, some 0, "a", none⟩,
            ⟨some 0, some 0, "b", none⟩]) 0 0).get ⟨m, hm⟩).lon) ∧
      (∀ m, ∀ hm : m < (queryG (buildIndex [⟨some 0, some 0, "a", none⟩,
          ⟨some 0, some 0, "b", none⟩]) 0 0).length, m < j →
        ((0 : ℕ), (1 : ℚ)).2 < constDist 1 0 0
          ((queryG (buildIndex [⟨some 0, some 0, "a", none⟩,
            ⟨some 0, some 0, "b", none⟩]) 0 0).get ⟨m, hm⟩).lat
          ((queryG (buildIndex [⟨some 0, some 0, "a", none⟩,
            ⟨some 0, some 0, "b", none⟩]) 0 0).get ⟨m, hm⟩).lon)) ∧
    (∀ (assets : List AssetRow) (maxD : ℚ),
      postProcess (constDist 1) [⟨some 0, some 0, "a", none⟩,
          ⟨some 0, some 0, "b", none⟩] assets maxD =
        postProcess (constDist 1) [⟨some 0, some 0, "a", none⟩,
          ⟨some 0, some 0, "b", none⟩] assets maxD) :=
  claim_C5 (constDist 1) [⟨some 0, some 0, "a", none⟩, ⟨some 0, some 0, "b", none⟩]
    0 0 (0, 1) (by
      have hq : queryG (buildIndex [⟨some 0, some 0, "a", none⟩,
          ⟨some 0, some 0, "b", none⟩]) 0 0 = [⟨0, 0, 0⟩, ⟨1, 0, 0⟩] :=
        queryG_origin _ _ rfl (by
          intro e he
          rcases List.mem_cons.mp he with rfl | he
          · exact ⟨rfl, rfl⟩
          · rw [List.mem_singleton] at he
            subst he
            exact ⟨rfl, rfl⟩)
      rw [hq, selectBest_pair])

/-- C7 witness: removing a concrete coordinate-less track row, or a
concrete coordinate-less asset row, leaves the analysis unchanged. -/
theorem claim_C7_witness :
    analyzeData (constDist 1) ([] ++ (⟨none, some 0, "x", none⟩ : TrackRow) ::
        [⟨some 0, some 0, "t", some 10⟩]) [⟨"A", some 0, some 0⟩] [] 50 =
      analyzeData (constDist 1) ([] ++ [⟨some 0, some 0, "t", some 10⟩])
        [⟨"A", some 0, some 0⟩] [] 50 ∧
    analyzeData (constDist 1) [⟨some 0, some 0, "t", some 10⟩]
        ([] ++ (⟨"B", none, some 0⟩ : AssetRow) :: [⟨"A", some 0, some 0⟩]) [] 50 =
      analyzeData (constDist 1) [⟨some 0, some 0, "t", some 10⟩]
        ([] ++ [⟨"A", some 0, some 0⟩]) [] 50 :=
  claim_C7 (constDist 1) [] [⟨some 0, some 0, "t", some 10⟩] ⟨none, some 0, "x", none⟩
    [⟨some 0, some 0, "t", some 10⟩] [] [⟨"A", some 0, some 0⟩] ⟨"B", none, some 0⟩
    [⟨"A", some 0, some 0⟩] [] 50 (Or.inl rfl) (Or.inl rfl)

theorem speedsOf_unmatched_nil :
    speedsOf (postProcess (constDist 0) [] [⟨"A", some 0, some 0⟩] 50).2 = [] := by
  rw [postProcess_results]
  have hm : matchOnePost (constDist 0) [] (buildIndex []) 50 ⟨"A", some 0, some 0⟩ =
      some ⟨"A", 0, 0, "", none, false⟩ := rfl
  simp [List.filterMap_cons, hm, speedsOf]

/-- C8 witness: with no matched numeric speed all three statistics are
exactly 0, and with no results the match rate is 0. -/
theorem claim_C8_witness :
    ((postProcess (constDist 0) [] [⟨"A", some 0, some 0⟩] 50).1.avg_speed = 0 ∧
     (postProcess (constDist 0) [] [⟨"A", some 0, some 0⟩] 50).1.max_speed = 0 ∧
     (postProcess (constDist 0) [] [⟨"A", some 0, some 0⟩] 50).1.min_speed = 0) ∧
    (postProcess (constDist 0) [] ([] : List AssetRow) 50).1.match_rate = 0 :=
  ⟨(claim_C8 (constDist 0) [] [⟨"A", some 0, some 0⟩] 50).2.1 speedsOf_unmatched_nil,
   (claim_C8 (constDist 0) [] ([] : List AssetRow) 50).2.2.2.2
     (by rw [postProcess_results]; rfl)⟩

theorem speedsOf_neg_eval :
    speedsOf (postProcess (constDist 1) [⟨some 0, some 0, "t", some (-5)⟩]
      [⟨"A", some 0, some 0⟩] 50).2 = [-5] := by
  have hq : queryG (buildIndex [⟨some 0, some 0, "t", some (-5)⟩]) 0 0 = [⟨0, 0, 0⟩] :=
    queryG_origin _ _ rfl (by
      intro e he
      rw [List.mem_singleton] at he
      subst he
      exact ⟨rfl, rfl⟩)
  have hm : matchOnePost (constDist 1) [⟨some 0, some 0, "t", some (-5)⟩]
      (buildIndex [⟨some 0, some 0, "t", some (-5)⟩]) 50 ⟨"A", some 0, some 0⟩ =
      some ⟨"A", 0, 0, "t", some (-5), true⟩ := by
    unfold matchOnePost
    simp only [hq]
    rw [show selectBest (constDist 1) 0 0 [⟨0, 0, 0⟩] = some (0, (1 : ℚ)) from rfl]
    simp [(by norm_num : (1 : ℚ) ≤ 50)]
  rw [postProcess_results]
  simp [List.filterMap_cons, hm, speedsOf]

/-- C10 witness: a run whose only matched speed is `-5` reports
`max_speed = 0`, not the actual maximum `-5`. -/
theorem claim_C10_witness :
    speedsOf (postProcess (constDist 1) [⟨some 0, some 0, "t", some (-5)⟩]
      [⟨"A", some 0, some 0⟩] 50).2 = [-5] ∧
    (postProcess (constDist 1) [⟨some 0, some 0, "t", some (-5)⟩]
      [⟨"A", some 0, some 0⟩] 50).1.max_speed = 0 :=
  ⟨speedsOf_neg_eval,
   (claim_C10 (constDist 1) [⟨some 0, some 0, "t", some (-5)⟩] [⟨"A", some 0, some 0⟩]
     [] [] 50).2.2 (by
       rw [speedsOf_neg_eval]
       intro s hs
       rw [List.mem_singleton] at hs
       subst hs
       norm_num)⟩

end OheAnalyzer
